import Mathlib

/-!
A verification development for the credential/presentation converters of
`did-jwt-vc` (`src/converters.ts`).

The JavaScript value universe is modelled by the mutual inductive types
`JsVal` / `JsList` / `JsFields`: an object is an insertion-ordered list of
(key, value) fields, and `undef` is a first-class value, so an own property
whose value is `undefined` is distinguishable from an absent property, as
the source requires.  Numbers are modelled as integers: every number the
converters manipulate (epoch seconds, epoch milliseconds) is an integer
well inside the float-exact range 2^53.  Values are trees; the one
caller-visible mutation in the source (`attestationToVcFormat` writing
`payload.issVc`) is modelled by returning the post-call state of the input
alongside the result.

External capabilities (the JWT decoder from `did-jwt`, `JSON.parse`) are
injected as function parameters, mirroring the spec's collaborator
contracts.  The ECMAScript `Date` builtins (`toISOString`, `Date.parse`)
are modelled executably, including the ±8.64e15 ms time-value range.
-/

mutual
inductive JsVal where
  | undef : JsVal
  | null : JsVal
  | bool (b : Bool) : JsVal
  | num (n : Int) : JsVal
  | str (s : String) : JsVal
  | arr (xs : JsList) : JsVal
  | obj (fs : JsFields) : JsVal
  deriving DecidableEq

inductive JsList where
  | nil : JsList
  | cons (v : JsVal) (rest : JsList) : JsList
  deriving DecidableEq

inductive JsFields where
  | nil : JsFields
  | cons (k : String) (v : JsVal) (rest : JsFields) : JsFields
  deriving DecidableEq
end

/-- JavaScript truthiness. -/
def truthy : JsVal → Bool
  | .undef => false
  | .null => false
  | .bool b => b
  | .num n => n != 0
  | .str s => s != ""
  | .arr _ => true
  | .obj _ => true

/-- JavaScript `typeof`. -/
def jsTypeof : JsVal → String
  | .undef => "undefined"
  | .null => "object"
  | .bool _ => "boolean"
  | .num _ => "number"
  | .str _ => "string"
  | .arr _ => "object"
  | .obj _ => "object"

/-- first-occurrence lookup in a field list. -/
def getF : JsFields → String → Option JsVal
  | .nil, _ => none
  | .cons k v rest, key => if k = key then some v else getF rest key

/-- JS property assignment on a field list: replace in place, else append. -/
def setF : JsFields → String → JsVal → JsFields
  | .nil, key, x => .cons key x .nil
  | .cons k v rest, key, x => if k = key then .cons k x rest else .cons k v (setF rest key x)

/-- JS `delete` on a field list. -/
def delF : JsFields → String → JsFields
  | .nil, _ => .nil
  | .cons k v rest, key => if k = key then delF rest key else .cons k v (delF rest key)

def hasF : JsFields → String → Bool
  | .nil, _ => false
  | .cons k _ rest, key => k = key || hasF rest key

/-- own-property lookup (`Object.getOwnPropertyNames(v).indexOf(k) !== -1` when `some`). -/
def getOwn : JsVal → String → Option JsVal
  | .obj fs, k => getF fs k
  | _, _ => none

/-- property read `v.k` / `v?.k`: `undefined` when missing or the receiver has no fields. -/
def jget (v : JsVal) (k : String) : JsVal :=
  match getOwn v k with
  | some x => x
  | none => .undef

def hasOwn : JsVal → String → Bool
  | .obj fs, k => hasF fs k
  | _, _ => false

/-- property write `v.k = x`.  A write to a non-object receiver leaves the value
    unchanged; no run described by the theorems below performs such a write. -/
def setOwn : JsVal → String → JsVal → JsVal
  | .obj fs, k, x => .obj (setF fs k x)
  | v, _, _ => v

/-- `delete v.k`. -/
def delOwn : JsVal → String → JsVal
  | .obj fs, k => .obj (delF fs k)
  | v, _ => v

/-- `delete v.k1?.k2` and the `v.k1.k2 = x` family: mutate the nested object when present. -/
def delOptField (v : JsVal) (k1 k2 : String) : JsVal :=
  match getOwn v k1 with
  | some (.obj fs) => setOwn v k1 (.obj (delF fs k2))
  | _ => v

def appendL : JsList → JsList → JsList
  | .nil, ys => ys
  | .cons x xs, ys => .cons x (appendL xs ys)

/-- spread of a field list into an accumulator, JS `{...base, ...fields}` order. -/
def spreadFieldsF (base : JsFields) : JsFields → JsFields
  | .nil => base
  | .cons k v rest => spreadFieldsF (setF base k v) rest

/-- spread of an array into an object: index-named properties. -/
def spreadListF (base : JsFields) (i : Nat) : JsList → JsFields
  | .nil => base
  | .cons v rest => spreadListF (setF base (toString i) v) (i + 1) rest

/-- spread of a string into an object: index-named single-character properties. -/
def spreadCharsF (base : JsFields) (i : Nat) : List Char → JsFields
  | [] => base
  | c :: rest => spreadCharsF (setF base (toString i) (.str (String.mk [c]))) (i + 1) rest

/-- object spread `{...base, ...v}` (numbers, booleans and nullish spread to nothing). -/
def spreadIntoF (base : JsFields) : JsVal → JsFields
  | .obj fs => spreadFieldsF base fs
  | .arr xs => spreadListF base 0 xs
  | .str s => spreadCharsF base 0 s.data
  | _ => base

/-- `{...a, ...b}`. -/
def objSpread2 (a b : JsVal) : JsVal := .obj (spreadIntoF (spreadIntoF .nil a) b)

/-- `notEmpty` from the source: not null and not undefined. -/
def notEmptyB : JsVal → Bool
  | .null => false
  | .undef => false
  | _ => true

def filterNotEmptyL : JsList → JsList
  | .nil => .nil
  | .cons x rest => if notEmptyB x then .cons x (filterNotEmptyL rest) else filterNotEmptyL rest

def memL (x : JsVal) : JsList → Bool
  | .nil => false
  | .cons y rest => x = y || memL x rest

/-- `[...new Set(xs)]`: first occurrences kept, insertion order.  `Set` compares
    primitives by value; on the primitive entries the claims exercise this agrees
    with the structural equality used here. -/
def dedupLAux (seen : JsList) : JsList → JsList
  | .nil => .nil
  | .cons x rest =>
      if memL x seen then dedupLAux seen rest
      else .cons x (dedupLAux (.cons x seen) rest)

def dedupL (xs : JsList) : JsList := dedupLAux .nil xs

/-- `asArray` from the source, producing the element list. -/
def asArrayL : JsVal → JsList
  | .arr xs => xs
  | v => .cons v .nil

/-- `a || b`. -/
def jsOr (a b : JsVal) : JsVal := if truthy a then a else b

def isArrB : JsVal → Bool
  | .arr _ => true
  | _ => false

/-! ### ECMAScript Date builtins, modelled -/

/-- day-of-year (March-based, 0..365) to (civil month 1..12, day 1..31). -/
def mdOfDoy (doy : Nat) : Nat × Nat :=
  let mp := (5 * doy + 2) / 153
  let d := doy - (153 * mp + 2) / 5 + 1
  (if mp < 10 then mp + 3 else mp - 9, d)

/-- inverse of mdOfDoy. -/
def doyOfMD (m d : Nat) : Nat :=
  let mp := if 2 < m then m - 3 else m + 9
  (153 * mp + 2) / 5 + d - 1

/-- century index within a 400-year era (clamped to 0..3). -/
def eraC (doe : Nat) : Nat := if 3 ≤ doe / 36524 then 3 else doe / 36524

/-- 4-year-block index within the century (clamped to 0..24). -/
def eraB (doe : Nat) : Nat :=
  let dc := doe - 36524 * eraC doe
  if 24 ≤ dc / 1461 then 24 else dc / 1461

/-- year index within the 4-year block (clamped to 0..3). -/
def eraK (doe : Nat) : Nat :=
  let db := doe - 36524 * eraC doe - 1461 * eraB doe
  if 3 ≤ db / 365 then 3 else db / 365

/-- day-of-year within the March-based year. -/
def eraDoy (doe : Nat) : Nat :=
  doe - 36524 * eraC doe - 1461 * eraB doe - 365 * eraK doe

/-- day-of-era (0..146096) to (year-of-era 0..399, day-of-year 0..365). -/
def yodOfDoe (doe : Nat) : Nat × Nat :=
  (100 * eraC doe + 4 * eraB doe + eraK doe, eraDoy doe)

/-- inverse of yodOfDoe. -/
def doeOfYod (yoe doy : Nat) : Nat :=
  365 * yoe + yoe / 4 - yoe / 100 + doy

theorem mdOfDoy_inv (doy : Nat) (h : doy ≤ 365) :
    doyOfMD (mdOfDoy doy).1 (mdOfDoy doy).2 = doy ∧
      1 ≤ (mdOfDoy doy).1 ∧ (mdOfDoy doy).1 ≤ 12 ∧ 1 ≤ (mdOfDoy doy).2 ∧ (mdOfDoy doy).2 ≤ 31 := by
  simp only [mdOfDoy, doyOfMD]
  by_cases hmp : (5 * doy + 2) / 153 < 10
  · rw [if_pos hmp]
    have h3 : 2 < (5 * doy + 2) / 153 + 3 := by omega
    rw [if_pos h3, Nat.add_sub_cancel]
    omega
  · rw [if_neg hmp]
    have h11 : (5 * doy + 2) / 153 ≤ 11 := by omega
    have h3 : ¬ 2 < (5 * doy + 2) / 153 - 9 := by omega
    rw [if_neg h3]
    have h9 : (5 * doy + 2) / 153 - 9 + 9 = (5 * doy + 2) / 153 := by omega
    rw [h9]
    omega

theorem eraC_le (doe : Nat) : eraC doe ≤ 3 := by
  simp only [eraC]; split <;> omega

theorem eraB_le (doe : Nat) : eraB doe ≤ 24 := by
  simp only [eraB]; split <;> omega

theorem eraK_le (doe : Nat) : eraK doe ≤ 3 := by
  simp only [eraK]; split <;> omega

theorem era_decomp (doe : Nat) (h : doe < 146097) :
    36524 * eraC doe + 1461 * eraB doe + 365 * eraK doe + eraDoy doe = doe ∧
      eraDoy doe ≤ 365 := by
  simp only [eraC, eraB, eraK, eraDoy]
  split_ifs <;> omega

theorem yoe_div4 (c b k : Nat) (hb : b ≤ 24) (hk : k ≤ 3) :
    (100 * c + 4 * b + k) / 4 = 25 * c + b := by omega

theorem yoe_div100 (c b k : Nat) (hc : c ≤ 3) (hb : b ≤ 24) (hk : k ≤ 3) :
    (100 * c + 4 * b + k) / 100 = c := by omega

theorem doeOfYod_comp (c b k doy : Nat) (hc : c ≤ 3) (hb : b ≤ 24) (hk : k ≤ 3) :
    doeOfYod (100 * c + 4 * b + k) doy = 36524 * c + 1461 * b + 365 * k + doy := by
  simp only [doeOfYod]
  rw [yoe_div4 c b k hb hk, yoe_div100 c b k hc hb hk]
  omega

theorem yodOfDoe_inv (doe : Nat) (h : doe < 146097) :
    doeOfYod (yodOfDoe doe).1 (yodOfDoe doe).2 = doe ∧
      (yodOfDoe doe).1 ≤ 399 ∧ (yodOfDoe doe).2 ≤ 365 := by
  have hc := eraC_le doe
  have hb := eraB_le doe
  have hk := eraK_le doe
  have hd := era_decomp doe h
  simp only [yodOfDoe]
  rw [doeOfYod_comp _ _ _ _ hc hb hk]
  omega

/- ===== days-level composition ===== -/

/-- shifted days (0 = 1 March of year 0) to civil (year, month, day), all Nat. -/
def civilFromDays (days : Nat) : Nat × Nat × Nat :=
  let era := days / 146097
  let doe := days % 146097
  let yd := yodOfDoe doe
  let md := mdOfDoy yd.2
  let y := era * 400 + yd.1
  (if md.1 ≤ 2 then y + 1 else y, md.1, md.2)

/-- inverse of civilFromDays. -/
def daysFromCivil (y m d : Nat) : Nat :=
  let y' := if m ≤ 2 then y - 1 else y
  let era := y' / 400
  let yoe := y' % 400
  era * 146097 + doeOfYod yoe (doyOfMD m d)

theorem civilFromDays_inv (days : Nat) :
    daysFromCivil (civilFromDays days).1 (civilFromDays days).2.1 (civilFromDays days).2.2 = days ∧
      1 ≤ (civilFromDays days).2.1 ∧ (civilFromDays days).2.1 ≤ 12 ∧
      1 ≤ (civilFromDays days).2.2 ∧ (civilFromDays days).2.2 ≤ 31 := by
  have hdoe : days % 146097 < 146097 := Nat.mod_lt _ (by omega)
  have hyod := yodOfDoe_inv (days % 146097) hdoe
  have hmd := mdOfDoy_inv (yodOfDoe (days % 146097)).2 hyod.2.2
  simp only [civilFromDays, daysFromCivil]
  rcases hmd with ⟨hmd1, hm1, hm12, hd1, hd31⟩
  rcases hyod with ⟨hyod1, hyoe, hdoy⟩
  constructor
  · by_cases hm2 : (mdOfDoy (yodOfDoe (days % 146097)).2).1 ≤ 2
    · rw [if_pos hm2, if_pos hm2]
      have : days / 146097 * 400 + (yodOfDoe (days % 146097)).1 + 1 - 1
           = days / 146097 * 400 + (yodOfDoe (days % 146097)).1 := by omega
      rw [this]
      have hdv : (days / 146097 * 400 + (yodOfDoe (days % 146097)).1) / 400 = days / 146097 := by omega
      have hmd400 : (days / 146097 * 400 + (yodOfDoe (days % 146097)).1) % 400
           = (yodOfDoe (days % 146097)).1 := by omega
      rw [hdv, hmd400, hmd1, hyod1]
      omega
    · rw [if_neg hm2, if_neg hm2]
      have hdv : (days / 146097 * 400 + (yodOfDoe (days % 146097)).1) / 400 = days / 146097 := by omega
      have hmd400 : (days / 146097 * 400 + (yodOfDoe (days % 146097)).1) % 400
           = (yodOfDoe (days % 146097)).1 := by omega
      rw [hdv, hmd400, hmd1, hyod1]
      omega
  · refine ⟨hm1, hm12, hd1, hd31⟩

/- ===== fixed-width decimal rendering and parsing ===== -/

/-- fixed-width decimal rendering, most significant digit first. -/
def renderFixed : Nat → Nat → List Char
  | 0, _ => []
  | w + 1, n => Char.ofNat (48 + n / 10 ^ w % 10) :: renderFixed w n

/-- fixed-width decimal parsing with accumulator. -/
def parseFixed : Nat → Nat → List Char → Option (Nat × List Char)
  | 0, acc, cs => some (acc, cs)
  | w + 1, acc, c :: cs =>
      if 48 ≤ c.toNat ∧ c.toNat ≤ 57 then parseFixed w (acc * 10 + (c.toNat - 48)) cs else none
  | _ + 1, _, [] => none

theorem digitChar_toNat (d : Nat) (h : d ≤ 9) : (Char.ofNat (48 + d)).toNat = 48 + d := by
  interval_cases d <;> rfl

theorem parseFixed_renderFixed (w : Nat) :
    ∀ acc n rest, parseFixed w acc (renderFixed w n ++ rest) = some (acc * 10 ^ w + n % 10 ^ w, rest) := by
  induction w with
  | zero => intro acc n rest; simp [parseFixed, renderFixed]; omega
  | succ w ih =>
      intro acc n rest
      have hd : n / 10 ^ w % 10 ≤ 9 := by omega
      have hc := digitChar_toNat (n / 10 ^ w % 10) hd
      simp only [renderFixed, List.cons_append, parseFixed, hc]
      rw [if_pos (by omega)]
      have harg : 48 + n / 10 ^ w % 10 - 48 = n / 10 ^ w % 10 := by omega
      simp only [List.append_eq] at ih ⊢
      rw [harg, ih]
      have hmul : (acc * 10 + n / 10 ^ w % 10) * 10 ^ w + n % 10 ^ w
          = acc * 10 ^ (w + 1) + n % 10 ^ (w + 1) := by
        rw [pow_succ, Nat.mod_mul]; ring
      rw [hmul]

/- ===== ISO 8601 interchange format (as produced by Date.prototype.toISOString) ===== -/

/-- the year field: plain 4 digits for 0..9999, sign + 6 digits otherwise.
    `ys` is the year shifted by +320000 so that all in-range years are Nat. -/
def renderYear (ys : Nat) : List Char :=
  if ys < 320000 then '-' :: renderFixed 6 (320000 - ys)
  else if ys - 320000 ≤ 9999 then renderFixed 4 (ys - 320000)
  else '+' :: renderFixed 6 (ys - 320000)

def renderISOCore (days tod : Nat) : List Char :=
  renderYear (civilFromDays days).1 ++
  ('-' :: renderFixed 2 (civilFromDays days).2.1 ++
   ('-' :: renderFixed 2 (civilFromDays days).2.2 ++
    ('T' :: renderFixed 2 (tod / 3600000) ++
     (':' :: renderFixed 2 (tod % 3600000 / 60000) ++
      (':' :: renderFixed 2 (tod % 60000 / 1000) ++
       ('.' :: renderFixed 3 (tod % 1000) ++ ['Z']))))))

/-- Model of the ECMAScript `Date.prototype.toISOString` builtin on an integral
    time value (epoch milliseconds); `none` models the RangeError thrown for
    time values outside the ±8.64e15 ms range.  Days are shifted by 117597068
    (= 719468 + 800·146097) so the civil-calendar computation stays in Nat. -/
def toISOString (ms : Int) : Option String :=
  if 8640000000000000 < ms.natAbs then none
  else some (String.mk (renderISOCore ((ms + 117597068 * 86400000).toNat / 86400000)
                                      ((ms + 117597068 * 86400000).toNat % 86400000)))

def expectChar (c : Char) : List Char → Option (List Char)
  | x :: xs => if x = c then some xs else none
  | [] => none

def parseYear (cs : List Char) : Option (Int × List Char) :=
  match cs with
  | [] => none
  | c :: rest =>
      if c = '+' then (parseFixed 6 0 rest).map (fun p => ((p.1 : Int), p.2))
      else if c = '-' then (parseFixed 6 0 rest).map (fun p => (-(p.1 : Int), p.2))
      else (parseFixed 4 0 (c :: rest)).map (fun p => ((p.1 : Int), p.2))

def parseMD (cs : List Char) : Option (Nat × Nat × List Char) :=
  match expectChar '-' cs with
  | none => none
  | some r1 =>
    match parseFixed 2 0 r1 with
    | none => none
    | some (mo, r2) =>
      match expectChar '-' r2 with
      | none => none
      | some r3 =>
        match parseFixed 2 0 r3 with
        | none => none
        | some (d, r4) => some (mo, d, r4)

def parseHM (cs : List Char) : Option (Nat × List Char) :=
  match expectChar 'T' cs with
  | none => none
  | some r1 =>
    match parseFixed 2 0 r1 with
    | none => none
    | some (hh, r2) =>
      match expectChar ':' r2 with
      | none => none
      | some r3 =>
        match parseFixed 2 0 r3 with
        | none => none
        | some (mi, r4) => some (hh * 3600000 + mi * 60000, r4)

def parseSMs (cs : List Char) : Option (Nat × List Char) :=
  match expectChar ':' cs with
  | none => none
  | some r1 =>
    match parseFixed 2 0 r1 with
    | none => none
    | some (ss, r2) =>
      match expectChar '.' r2 with
      | none => none
      | some r3 =>
        match parseFixed 3 0 r3 with
        | none => none
        | some (msec, r4) =>
          match expectChar 'Z' r4 with
          | none => none
          | some [] => some (ss * 1000 + msec, [])
          | some (_ :: _) => none

/-- assemble the parsed components into an epoch-ms time value. -/
def isoToMs (y : Int) (mo d tod : Nat) : Option Int :=
  if y < -300000 ∨ 300000 < y then none
  else
    let msv : Int :=
      ((daysFromCivil (y + 320000).toNat mo d * 86400000 + tod : Nat) : Int)
        - (117597068 * 86400000 : Int)
    if 8640000000000000 < msv.natAbs then none else some msv

def parseISO (cs : List Char) : Option Int :=
  (parseYear cs).bind fun yr =>
  (parseMD yr.2).bind fun md =>
  (parseHM md.2.2).bind fun hm =>
  (parseSMs hm.2).bind fun sm =>
  isoToMs yr.1 md.1 md.2.1 (hm.1 + sm.1)

/-- Model of the ECMAScript `Date.parse` builtin, restricted to the
    Date Time String Format strings produced by `toISOString`; `none` models NaN. -/
def dateParse (s : String) : Option Int := parseISO s.data

/- ===== round-trip lemmas ===== -/

theorem expectChar_cons (c : Char) (rest : List Char) : expectChar c (c :: rest) = some rest := by
  simp [expectChar]

theorem renderFixed_head (w n : Nat) :
    renderFixed (w + 1) n = Char.ofNat (48 + n / 10 ^ w % 10) :: renderFixed w n := rfl

theorem parseYear_render4 (n : Nat) (h : n ≤ 9999) (rest : List Char) :
    parseYear (renderFixed 4 n ++ rest) = some ((n : Int), rest) := by
  have hd : n / 10 ^ 3 % 10 ≤ 9 := by omega
  have hc := digitChar_toNat (n / 10 ^ 3 % 10) hd
  rw [renderFixed_head, List.cons_append]
  simp only [parseYear]
  have hplus : Char.ofNat (48 + n / 10 ^ 3 % 10) ≠ '+' := by
    intro he
    have h2 : (Char.ofNat (48 + n / 10 ^ 3 % 10)).toNat = ('+' : Char).toNat := by rw [he]
    rw [hc, show ('+' : Char).toNat = 43 from rfl] at h2
    omega
  have hminus : Char.ofNat (48 + n / 10 ^ 3 % 10) ≠ '-' := by
    intro he
    have h2 : (Char.ofNat (48 + n / 10 ^ 3 % 10)).toNat = ('-' : Char).toNat := by rw [he]
    rw [hc, show ('-' : Char).toNat = 45 from rfl] at h2
    omega
  rw [if_neg hplus, if_neg hminus]
  rw [← List.cons_append, ← renderFixed_head, parseFixed_renderFixed]
  simp only [Option.map_some']
  have hmod : 0 * 10 ^ 4 + n % 10 ^ 4 = n := by
    rw [show (10 : Nat) ^ 4 = 10000 from by norm_num]
    omega
  rw [hmod]

theorem parseYear_render6 (n : Nat) (h : n ≤ 999999) (rest : List Char) :
    parseYear ('+' :: renderFixed 6 n ++ rest) = some ((n : Int), rest) := by
  simp only [List.cons_append, parseYear, if_pos rfl]
  rw [parseFixed_renderFixed]
  simp only [Option.map_some']
  have hmod : 0 * 10 ^ 6 + n % 10 ^ 6 = n := by
    rw [show (10 : Nat) ^ 6 = 1000000 from by norm_num]
    omega
  rw [hmod]
  simp

theorem parseFixed2_render (m : Nat) (h : m ≤ 99) (rest : List Char) :
    parseFixed 2 0 (renderFixed 2 m ++ rest) = some (m, rest) := by
  rw [parseFixed_renderFixed]
  have : 0 * 10 ^ 2 + m % 10 ^ 2 = m := by
    rw [show (10 : Nat) ^ 2 = 100 from by norm_num]; omega
  rw [this]

theorem parseFixed3_render (m : Nat) (h : m ≤ 999) (rest : List Char) :
    parseFixed 3 0 (renderFixed 3 m ++ rest) = some (m, rest) := by
  rw [parseFixed_renderFixed]
  have : 0 * 10 ^ 3 + m % 10 ^ 3 = m := by
    rw [show (10 : Nat) ^ 3 = 1000 from by norm_num]; omega
  rw [this]

theorem parseMD_frag (mo d : Nat) (hmo : mo ≤ 99) (hd : d ≤ 99) (rest : List Char) :
    parseMD ('-' :: renderFixed 2 mo ++ ('-' :: renderFixed 2 d ++ rest)) = some (mo, d, rest) := by
  simp only [parseMD, List.cons_append, expectChar_cons,
    parseFixed2_render mo hmo, parseFixed2_render d hd]

theorem parseHM_frag (hh mi : Nat) (hh99 : hh ≤ 99) (hmi : mi ≤ 99) (rest : List Char) :
    parseHM ('T' :: renderFixed 2 hh ++ (':' :: renderFixed 2 mi ++ rest))
      = some (hh * 3600000 + mi * 60000, rest) := by
  simp only [parseHM, List.cons_append, expectChar_cons,
    parseFixed2_render hh hh99, parseFixed2_render mi hmi]

theorem parseSMs_frag (ss msec : Nat) (hss : ss ≤ 99) (hmsec : msec ≤ 999) :
    parseSMs (':' :: renderFixed 2 ss ++ ('.' :: renderFixed 3 msec ++ ['Z']))
      = some (ss * 1000 + msec, []) := by
  simp only [parseSMs, List.cons_append, expectChar_cons,
    parseFixed2_render ss hss, parseFixed3_render msec hmsec, List.append_nil,
    show expectChar 'Z' ['Z'] = some [] from rfl]

theorem parseYear_renderYear (ys : Nat) (h1 : 320000 ≤ ys) (h2 : ys ≤ 1319999) (rest : List Char) :
    parseYear (renderYear ys ++ rest) = some ((ys : Int) - 320000, rest) := by
  simp only [renderYear]
  rw [if_neg (by omega)]
  have hys : ((ys - 320000 : Nat) : Int) = (ys : Int) - 320000 := by omega
  by_cases hsm : ys - 320000 ≤ 9999
  · rw [if_pos hsm, parseYear_render4 (ys - 320000) hsm rest, hys]
  · rw [if_neg hsm, parseYear_render6 (ys - 320000) (by omega) rest, hys]

theorem civilFromDays_year_bounds (days : Nat) :
    days / 146097 * 400 ≤ (civilFromDays days).1 ∧
      (civilFromDays days).1 ≤ days / 146097 * 400 + 400 := by
  have h := (yodOfDoe_inv (days % 146097) (Nat.mod_lt _ (by omega))).2.1
  simp only [civilFromDays]
  split <;> omega

theorem parseISO_renderISOCore (days tod : Nat)
    (hdge : 117597068 ≤ days) (htod : tod < 86400000)
    (hcomb : days * 86400000 + tod ≤ 18800386675200000) :
    parseISO (renderISOCore days tod)
      = some (((days * 86400000 + tod : Nat) : Int) - 117597068 * 86400000) := by
  have hdle : days ≤ 217597068 := by omega
  have hyb := civilFromDays_year_bounds days
  have hysge : 320000 ≤ (civilFromDays days).1 := by omega
  have hysle : (civilFromDays days).1 ≤ 596000 := by omega
  have hinv := civilFromDays_inv days
  simp only [renderISOCore, parseISO]
  rw [parseYear_renderYear _ hysge (by omega)]
  simp only [Option.some_bind]
  rw [parseMD_frag _ _ (by omega) (by omega)]
  simp only [Option.some_bind]
  rw [parseHM_frag _ _ (by omega) (by omega)]
  simp only [Option.some_bind]
  rw [parseSMs_frag _ _ (by omega) (by omega)]
  simp only [Option.some_bind, isoToMs]
  rw [if_neg (by omega)]
  have htn : (((civilFromDays days).1 : Int) - 320000 + 320000).toNat = (civilFromDays days).1 := by
    omega
  rw [htn, hinv.1]
  rw [if_neg (by omega)]
  exact congrArg some (by omega)

theorem toISOString_roundtrip (M : Nat) (hM : M ≤ 8640000000000000) :
    ∃ s, toISOString (M : Int) = some s ∧ dateParse s = some (M : Int) := by
  have hcast : ((M : Int) + 117597068 * 86400000).toNat = M + 117597068 * 86400000 := by omega
  refine ⟨_, by simp only [toISOString]; rw [if_neg (by omega), hcast], ?_⟩
  show dateParse (String.mk (renderISOCore ((M + 117597068 * 86400000) / 86400000)
      ((M + 117597068 * 86400000) % 86400000))) = some (M : Int)
  rw [show dateParse (String.mk (renderISOCore ((M + 117597068 * 86400000) / 86400000)
        ((M + 117597068 * 86400000) % 86400000)))
      = parseISO (renderISOCore ((M + 117597068 * 86400000) / 86400000)
        ((M + 117597068 * 86400000) % 86400000)) from rfl]
  rw [parseISO_renderISOCore _ _ (by omega) (by omega) (by omega)]
  exact congrArg some (by omega)

/-! ### Constants and format test

`src/constants.ts` is not part of the given sources; these values are
modelled from the spec (§6: default proof type `"JwtProof2020"`, default
JSON-LD base context URI, default base credential type
`"VerifiableCredential"`, and the JWT shape pattern
`^[A-Za-z0-9_-]+\.[A-Za-z0-9_-]+\.[A-Za-z0-9_-]*$`). -/

/-- Modelled from the spec: the default JSON-LD base context URI from `src/constants.ts`. -/
def DEFAULT_CONTEXT : String := "https://www.w3.org/2018/credentials/v1"

/-- Modelled from the spec: the default base credential type literal from `src/constants.ts`. -/
def DEFAULT_VC_TYPE : String := "VerifiableCredential"

/-- Modelled from the spec: the default proof type string from `src/constants.ts`. -/
def DEFAULT_JWT_PROOF_TYPE : String := "JwtProof2020"

def isB64urlChar (c : Char) : Bool :=
  ('a' ≤ c && c ≤ 'z') || ('A' ≤ c && c ≤ 'Z') || ('0' ≤ c && c ≤ '9') || c = '_' || c = '-'

/-- split a character list on `'.'`. -/
def splitOnDot : List Char → List (List Char)
  | [] => [[]]
  | c :: rest =>
    if c = '.' then [] :: splitOnDot rest
    else
      match splitOnDot rest with
      | seg :: segs => (c :: seg) :: segs
      | [] => [[c]]

/-- Modelled from the spec: `JWT_FORMAT.test(s)` for the pattern
    `^[A-Za-z0-9_-]+\.[A-Za-z0-9_-]+\.[A-Za-z0-9_-]*$`.  Since `.` is not in
    the character class, a string matches iff splitting on `.` yields exactly
    three segments of class characters, the first two nonempty. -/
def jwtFormatTest (s : String) : Bool :=
  match splitOnDot s.data with
  | [a, b, c] => !a.isEmpty && !b.isEmpty
      && a.all isB64urlChar && b.all isB64urlChar && c.all isB64urlChar
  | _ => false

/-! ### converters.ts -/

/-- `deepCopy` (converters.ts lines 19-48) produces a structurally equal fresh
    value; on the tree-shaped values of this model it is the identity. -/
def deepCopy (v : JsVal) : JsVal := v

/-- converters.ts lines 63-66: `payload instanceof Object && payload.sub && payload.iss
    && payload.claim && payload.iat`.  (Model arrays carry no named properties, so the
    property reads make arrays fail the conjunction just as bare JS arrays would.) -/
def isLegacyAttestationFormat (payload : JsVal) : Bool :=
  (match payload with
   | .obj _ => true
   | .arr _ => true
   | _ => false)
  && truthy (jget payload "sub") && truthy (jget payload "iss")
  && truthy (jget payload "claim") && truthy (jget payload "iat")

/-- converters.ts lines 68-81.  Returns the result together with the post-call
    state of `payload`: line 79 (`if (vc) payload.issVc = vc`) assigns to the
    caller's object, not to `result`. -/
def attestationToVcFormat (payload : JsVal) : JsVal × JsVal :=
  let rest := delOwn (delOwn (delOwn (delOwn payload "iat") "nbf") "claim") "vc"
  let vcObj : JsVal :=
    .obj (.cons "@context" (.arr (.cons (.str DEFAULT_CONTEXT) .nil))
         (.cons "type" (.arr (.cons (.str DEFAULT_VC_TYPE) .nil))
         (.cons "credentialSubject" (jget payload "claim") .nil)))
  let result := setOwn (setOwn rest "nbf" (jsOr (jget payload "nbf") (jget payload "iat"))) "vc" vcObj
  let payload' := if truthy (jget payload "vc") then setOwn payload "issVc" (jget payload "vc") else payload
  (result, payload')

/-- converters.ts lines 84-88. -/
def credLegacyStep (input : JsVal) : JsVal × JsVal :=
  if isLegacyAttestationFormat input then attestationToVcFormat input
  else (deepCopy input, input)

/-- converters.ts lines 90-96. -/
def credSubjectStep (input result : JsVal) : JsVal :=
  let merged := objSpread2 (jget input "credentialSubject") (jget (jget input "vc") "credentialSubject")
  let r1 := setOwn result "credentialSubject" merged
  let r2 :=
    if truthy (jget input "sub") && !truthy (jget (jget input "credentialSubject") "id") then
      delOwn (setOwn r1 "credentialSubject" (setOwn merged "id" (jget input "sub"))) "sub"
    else r1
  delOptField r2 "vc" "credentialSubject"

/-- converters.ts lines 54-61. -/
def filterUndefF : JsFields → JsFields
  | .nil => .nil
  | .cons k v rest => if v = .undef then filterUndefF rest else .cons k v (filterUndefF rest)

def cleanUndefined (v : JsVal) : JsVal :=
  if jsTypeof v ≠ "object" then v
  else .obj (filterUndefF (spreadIntoF .nil v))

/-- converters.ts lines 98-103. -/
def credIssuerStep (input result : JsVal) : JsVal :=
  if jsTypeof (jget input "issuer") = "undefined" ∨ jsTypeof (jget input "issuer") = "object" then
    let r1 := setOwn result "issuer"
      (cleanUndefined (.obj (spreadIntoF (.cons "id" (jget input "iss") .nil) (jget input "issuer"))))
    if !truthy (jget (jget input "issuer") "id") then delOwn r1 "iss" else r1
  else result

/-- converters.ts lines 105-108. -/
def credIdStep (input result : JsVal) : JsVal :=
  if !truthy (jget input "id") && truthy (jget input "jti") then
    delOwn (setOwn result "id" (jsOr (jget result "id") (jget result "jti"))) "jti"
  else result

/-- converters.ts lines 110-112 (reads `result`, not `input`). -/
def credTypeStep (result : JsVal) : JsVal :=
  let types := dedupL (filterNotEmptyL
    (appendL (asArrayL (jget result "type")) (asArrayL (jget (jget result "vc") "type"))))
  delOptField (setOwn result "type" (.arr types)) "vc" "type"

/-- converters.ts lines 114-121 (reads `input`). -/
def credContextStep (input result : JsVal) : JsVal :=
  let ctx := dedupL (filterNotEmptyL
    (appendL (asArrayL (jget input "context"))
      (appendL (asArrayL (jget input "@context")) (asArrayL (jget (jget input "vc") "@context")))))
  delOptField (delOwn (setOwn result "@context" (.arr ctx)) "context") "vc" "@context"

/-- JS `ToNumber` restricted to the integral values the converters feed to
    `new Date(...)`: numbers, booleans and null convert; strings, objects,
    arrays and undefined are modelled as NaN (`none`). -/
def jsToNumber : JsVal → Option Int
  | .num n => some n
  | .bool b => some (if b then 1 else 0)
  | .null => some 0
  | _ => none

/-- converters.ts lines 123-130 (and the identical presentation code at 310-317):
    `new Date((input.nbf || input.iat) * 1000).toISOString()`; an invalid or
    out-of-range time value makes `toISOString` throw RangeError. -/
def credDateStep (input result : JsVal) : Except String JsVal :=
  if !truthy (jget input "issuanceDate") && (truthy (jget input "iat") || truthy (jget input "nbf")) then
    match jsToNumber (jsOr (jget input "nbf") (jget input "iat")) with
    | none => .error "Invalid time value"
    | some n =>
      match toISOString (n * 1000) with
      | none => .error "Invalid time value"
      | some iso =>
        let r1 := setOwn result "issuanceDate" (.str iso)
        .ok (if truthy (jget input "nbf") then delOwn r1 "nbf" else delOwn r1 "iat")
  else .ok result

/-- converters.ts lines 132-135 (and 319-322). -/
def credExpStep (input result : JsVal) : Except String JsVal :=
  if !truthy (jget input "expirationDate") && truthy (jget input "exp") then
    match jsToNumber (jget input "exp") with
    | none => .error "Invalid time value"
    | some n =>
      match toISOString (n * 1000) with
      | none => .error "Invalid time value"
      | some iso => .ok (delOwn (setOwn result "expirationDate" (.str iso)) "exp")
  else .ok result

/-- converters.ts lines 137-139. -/
def credVcCleanupStep (result : JsVal) : JsVal :=
  match getOwn result "vc" with
  | some (.obj .nil) => delOwn result "vc"
  | _ => result

/-- converters.ts lines 83-144.  Returns (result, post-call state of `input`). -/
def normalizeJwtCredentialPayload (input : JsVal) : Except String (JsVal × JsVal) :=
  let p := credLegacyStep input
  let r5 := credContextStep input (credTypeStep (credIdStep input
    (credIssuerStep input (credSubjectStep input p.1))))
  match credDateStep input r5 with
  | .error e => .error e
  | .ok r6 =>
    match credExpStep input r6 with
    | .error e => .error e
    | .ok r7 => .ok (credVcCleanupStep r7, p.2)

/-- converters.ts lines 146-160.  `dec` is the injected `decodeJWT` capability
    returning the decoded payload (`none` models a decode throw). -/
def normalizeJwtCredential (dec : String → Option JsVal) (input : String) : Except String JsVal :=
  match dec input with
  | none => .error "unknown credential format"
  | some payload =>
    match normalizeJwtCredentialPayload payload with
    | .error e => .error e
    | .ok pr =>
      .ok (setOwn (.obj (spreadIntoF .nil pr.1)) "proof"
        (.obj (.cons "type" (.str DEFAULT_JWT_PROOF_TYPE) (.cons "jwt" (.str input) .nil))))

/-- converters.ts lines 168-191, fuelled for the `JSON.parse`-then-recurse path
    (each successful parse of a string strictly shrinks it, so `length + 1`
    fuel is never exhausted with a real JSON parser).  `jp` is the injected
    `JSON.parse` capability, `dec` the injected `decodeJWT` capability.
    Returns (result, post-call state of the argument). -/
def normalizeCredentialFuel (jp dec : String → Option JsVal) :
    Nat → JsVal → Except String (JsVal × JsVal)
  | 0, _ => .error "unknown credential format"
  | fuel + 1, v =>
    match v with
    | .str s =>
      if jwtFormatTest s then
        match normalizeJwtCredential dec s with
        | .error e => .error e
        | .ok r => .ok (r, .str s)
      else
        match jp s with
        | none => .error "unknown credential format"
        | some parsed =>
          match normalizeCredentialFuel jp dec fuel parsed with
          | .error e => .error e
          | .ok pr => .ok (pr.1, .str s)
    | v =>
      if truthy (jget (jget v "proof") "jwt") then
        match jget (jget v "proof") "jwt" with
        | .str s =>
          match normalizeJwtCredential dec s with
          | .error e => .error e
          | .ok r => .ok (setOwn (.obj (spreadIntoF .nil r)) "proof" (jget v "proof"), v)
        | _ => .error "unknown credential format"
      else
        match normalizeJwtCredentialPayload v with
        | .error e => .error e
        | .ok pr => .ok (.obj (spreadIntoF (.cons "proof" (.obj .nil) .nil) pr.1), pr.2)

def credFuelOf : JsVal → Nat
  | .str s => s.data.length + 1
  | _ => 1

def normalizeCredential (jp dec : String → Option JsVal) (v : JsVal) :
    Except String (JsVal × JsVal) :=
  normalizeCredentialFuel jp dec (credFuelOf v) v

/-- `result.vc.k = x` when `result.vc` is an object (the only case the
    transforms reach after the vc-shape guard). -/
def setVcField (r : JsVal) (k : String) (x : JsVal) : JsVal :=
  match getOwn r "vc" with
  | some (.obj fs) => setOwn r "vc" (.obj (setF fs k x))
  | _ => r

/-- `Date.parse(v)`: non-strings stringify to unparseable text for the values
    the converters pass, so they are modelled as NaN. -/
def dateParseVal : JsVal → Option Int
  | .str s => dateParse s
  | _ => none

/-- converters.ts lines 232-235 / 400-403. -/
def transformIdStep (input result : JsVal) : JsVal :=
  if truthy (jget input "id") && !hasOwn input "jti" then
    delOwn (setOwn result "jti" (jget input "id")) "id"
  else result

/-- converters.ts lines 237-243 / 405-411. -/
def transformNbfStep (input result : JsVal) : JsVal :=
  if truthy (jget input "issuanceDate") && !hasOwn input "nbf" then
    match dateParseVal (jget input "issuanceDate") with
    | some converted => delOwn (setOwn result "nbf" (.num (Int.fdiv converted 1000))) "issuanceDate"
    | none => result
  else result

/-- converters.ts lines 245-251 / 413-419. -/
def transformExpStep (input result : JsVal) : JsVal :=
  if truthy (jget input "expirationDate") && !hasOwn input "exp" then
    match dateParseVal (jget input "expirationDate") with
    | some converted => delOwn (setOwn result "exp" (.num (Int.fdiv converted 1000))) "expirationDate"
    | none => result
  else result

/-- `delete result.issuer.id` (converters.ts line 256). -/
def issuerDelId (r : JsVal) : JsVal :=
  match getOwn r "issuer" with
  | some (.obj fs) => setOwn r "issuer" (.obj (delF fs "id"))
  | _ => r

/-- converters.ts lines 257-259: drop `issuer` when it has no keys left
    (`Object.keys(result.issuer).length === 0` also holds for an empty array). -/
def issuerCleanup (r : JsVal) : JsVal :=
  match getOwn r "issuer" with
  | some (.obj .nil) => delOwn r "issuer"
  | some (.arr .nil) => delOwn r "issuer"
  | _ => r

/-- converters.ts lines 253-266. -/
def transformIssuerStep (input result : JsVal) : JsVal :=
  if truthy (jget input "issuer") && !hasOwn input "iss" then
    if jsTypeof (jget input "issuer") = "object" then
      issuerCleanup (issuerDelId (setOwn result "iss" (jget (jget input "issuer") "id")))
    else if jsTypeof (jget input "issuer") = "string" then
      delOwn (setOwn result "iss" (jsOr (jget input "iss") (jget input "issuer"))) "issuer"
    else result
  else result

/-- converters.ts lines 204-269. -/
def transformCredentialInput (input : JsVal) : Except String JsVal :=
  if isArrB (jget input "credentialSubject") then
    .error "credentialSubject of type array not supported"
  else
    let result := deepCopy (.obj (spreadIntoF
      (.cons "vc" (.obj (spreadIntoF .nil (jget input "vc"))) .nil) input))
    match getOwn result "vc" with
    | some (.obj _) =>
      let credentialSubject := objSpread2 (jget input "credentialSubject")
        (jget (jget input "vc") "credentialSubject")
      let p : JsVal × JsVal :=
        if !truthy (jget input "sub") then
          (setOwn result "sub" (jget (jget input "credentialSubject") "id"),
           delOwn credentialSubject "id")
        else (result, credentialSubject)
      let r2 := delOwn (setVcField p.1 "credentialSubject" p.2) "credentialSubject"
      let contextEntries := dedupL (filterNotEmptyL
        (appendL (asArrayL (jget input "context"))
          (appendL (asArrayL (jget input "@context")) (asArrayL (jget (jget input "vc") "@context")))))
      let r3 := delOwn (delOwn (setVcField r2 "@context" (.arr contextEntries)) "context") "@context"
      let types := dedupL (filterNotEmptyL
        (appendL (asArrayL (jget input "type")) (asArrayL (jget (jget input "vc") "type"))))
      let r4 := delOwn (setVcField r3 "type" (.arr types)) "type"
      .ok (transformIssuerStep input (transformExpStep input (transformNbfStep input
        (transformIdStep input r4))))
    | _ => .error "TypeError"

/-! ### presentations -/

/-- element-wise credential normalization used by converters.ts line 274-278:
    empty (null/undefined) entries are skipped by the `notEmpty` filter before
    the map; each processed element also yields its post-call state. -/
def normCredListF (jp dec : String → Option JsVal) : JsList → Except String (JsList × JsList)
  | .nil => .ok (.nil, .nil)
  | .cons e rest =>
    if notEmptyB e then
      match normalizeCredential jp dec e with
      | .error err => .error err
      | .ok pr =>
        match normCredListF jp dec rest with
        | .error err => .error err
        | .ok q => .ok (.cons pr.1 q.1, .cons pr.2 q.2)
    else
      match normCredListF jp dec rest with
      | .error err => .error err
      | .ok q => .ok (q.1, .cons e q.2)

/-- rebuild the caller's presentation object after the element-wise calls of
    line 278 (they receive the caller's embedded credential objects, so any
    mutation they perform lands in the caller's structure). -/
def updateCreds (input : JsVal) (tops vps : JsList) : JsVal :=
  let i1 :=
    match getOwn input "verifiableCredential" with
    | some (.arr _) => setOwn input "verifiableCredential" (.arr tops)
    | some _ =>
      match tops with
      | .cons e .nil => setOwn input "verifiableCredential" e
      | _ => input
    | none => input
  match getOwn i1 "vp" with
  | some (.obj vfs) =>
    match getF vfs "verifiableCredential" with
    | some (.arr _) => setOwn i1 "vp" (.obj (setF vfs "verifiableCredential" (.arr vps)))
    | some _ =>
      match vps with
      | .cons e .nil => setOwn i1 "vp" (.obj (setF vfs "verifiableCredential" e))
      | _ => i1
    | none => i1
  | _ => i1

/-- converters.ts lines 281-284. -/
def presHolderStep (input result : JsVal) : JsVal :=
  if truthy (jget input "iss") && !truthy (jget input "holder") then
    delOwn (setOwn result "holder" (jget input "iss")) "iss"
  else result

/-- converters.ts lines 286-290. -/
def presAudStep (input result : JsVal) : JsVal :=
  if truthy (jget input "aud") then
    let verifier := dedupL (filterNotEmptyL
      (appendL (asArrayL (jget input "verifier")) (asArrayL (jget input "aud"))))
    delOwn (setOwn result "verifier" (.arr verifier)) "aud"
  else result

/-- converters.ts lines 292-295. -/
def presIdStep (input result : JsVal) : JsVal :=
  if truthy (jget input "jti") && !hasOwn input "id" then
    delOwn (setOwn result "id" (jsOr (jget input "id") (jget input "jti"))) "jti"
  else result

/-- converters.ts lines 297-299. -/
def presTypeStep (input result : JsVal) : JsVal :=
  let types := dedupL (filterNotEmptyL
    (appendL (asArrayL (jget input "type")) (asArrayL (jget (jget input "vp") "type"))))
  delOptField (setOwn result "type" (.arr types)) "vp" "type"

/-- converters.ts lines 301-308. -/
def presContextStep (input result : JsVal) : JsVal :=
  let ctx := dedupL (filterNotEmptyL
    (appendL (asArrayL (jget input "context"))
      (appendL (asArrayL (jget input "@context")) (asArrayL (jget (jget input "vp") "@context")))))
  delOptField (delOwn (setOwn result "@context" (.arr ctx)) "context") "vp" "@context"

/-- converters.ts lines 324-326. -/
def presVpCleanupStep (result : JsVal) : JsVal :=
  match getOwn result "vp" with
  | some (.obj .nil) => delOwn result "vp"
  | _ => result

/-- converters.ts lines 271-329.  Returns (result, post-call state of `input`). -/
def normalizeJwtPresentationPayload (jp dec : String → Option JsVal) (input : JsVal) :
    Except String (JsVal × JsVal) :=
  match normCredListF jp dec (asArrayL (jget input "verifiableCredential")) with
  | .error e => .error e
  | .ok tp =>
    match normCredListF jp dec (asArrayL (jget (jget input "vp") "verifiableCredential")) with
    | .error e => .error e
    | .ok vq =>
      let input' := updateCreds input tp.2 vq.2
      let r2 := delOptField
        (setOwn (deepCopy input) "verifiableCredential" (.arr (appendL tp.1 vq.1)))
        "vp" "verifiableCredential"
      let r7 := presContextStep input (presTypeStep input (presIdStep input
        (presAudStep input (presHolderStep input r2))))
      match credDateStep input r7 with
      | .error e => .error e
      | .ok r8 =>
        match credExpStep input r8 with
        | .error e => .error e
        | .ok r9 => .ok (presVpCleanupStep r9, input')

/-- converters.ts lines 331-345. -/
def normalizeJwtPresentation (jp dec : String → Option JsVal) (input : String) :
    Except String JsVal :=
  match dec input with
  | none => .error "unknown presentation format"
  | some payload =>
    match normalizeJwtPresentationPayload jp dec payload with
    | .error e => .error e
    | .ok pr =>
      .ok (setOwn (.obj (spreadIntoF .nil pr.1)) "proof"
        (.obj (.cons "type" (.str DEFAULT_JWT_PROOF_TYPE) (.cons "jwt" (.str input) .nil))))

/-- converters.ts lines 351-374, fuelled like `normalizeCredential`. -/
def normalizePresentationFuel (jp dec : String → Option JsVal) :
    Nat → JsVal → Except String (JsVal × JsVal)
  | 0, _ => .error "unknown presentation format"
  | fuel + 1, v =>
    match v with
    | .str s =>
      if jwtFormatTest s then
        match normalizeJwtPresentation jp dec s with
        | .error e => .error e
        | .ok r => .ok (r, .str s)
      else
        match jp s with
        | none => .error "unknown presentation format"
        | some parsed =>
          match normalizePresentationFuel jp dec fuel parsed with
          | .error e => .error e
          | .ok pr => .ok (pr.1, .str s)
    | v =>
      if truthy (jget (jget v "proof") "jwt") then
        match jget (jget v "proof") "jwt" with
        | .str s =>
          match normalizeJwtPresentation jp dec s with
          | .error e => .error e
          | .ok r => .ok (setOwn (.obj (spreadIntoF .nil r)) "proof" (jget v "proof"), v)
        | _ => .error "unknown presentation format"
      else
        match normalizeJwtPresentationPayload jp dec v with
        | .error e => .error e
        | .ok pr => .ok (.obj (spreadIntoF (.cons "proof" (.obj .nil) .nil) pr.1), pr.2)

def normalizePresentation (jp dec : String → Option JsVal) (v : JsVal) :
    Except String (JsVal × JsVal) :=
  normalizePresentationFuel jp dec (credFuelOf v) v

/-- converters.ts lines 421-432: reduce an embedded credential to its compact
    JWT when it carries a JWT proof. -/
def reduceCredToJwt (credential : JsVal) : JsVal :=
  match credential with
  | .obj fs =>
    if truthy (jget (jget (.obj fs) "proof") "jwt") then jget (jget (.obj fs) "proof") "jwt"
    else .obj fs
  | v => v

def mapReduceL : JsList → JsList
  | .nil => .nil
  | .cons x rest => .cons (reduceCredToJwt x) (mapReduceL rest)

/-- converters.ts lines 435-442. -/
def transformPresHolderStep (input result : JsVal) : JsVal :=
  if truthy (jget input "holder") && !hasOwn input "iss" then
    if jsTypeof (jget input "holder") = "string" then
      delOwn (setOwn result "iss" (jget input "holder")) "holder"
    else result
  else result

/-- converters.ts lines 444-448. -/
def transformPresAudStep (input result : JsVal) : JsVal :=
  if truthy (jget input "verifier") then
    let audience := dedupL (filterNotEmptyL
      (appendL (asArrayL (jget input "verifier")) (asArrayL (jget input "aud"))))
    delOwn (setOwn result "aud" (.arr audience)) "verifier"
  else result

/-- `result.vp.k = x` when `result.vp` is an object. -/
def setVpField (r : JsVal) (k : String) (x : JsVal) : JsVal :=
  match getOwn r "vp" with
  | some (.obj fs) => setOwn r "vp" (.obj (setF fs k x))
  | _ => r

/-- converters.ts lines 421-433 (reads `result`). -/
def transformPresCredsStep (result : JsVal) : JsVal :=
  let creds := mapReduceL (filterNotEmptyL
    (appendL (asArrayL (jget result "verifiableCredential"))
      (asArrayL (jget (jget result "vp") "verifiableCredential"))))
  delOwn (setVpField result "verifiableCredential" (.arr creds)) "verifiableCredential"

/-- converters.ts lines 382-451. -/
def transformPresentationInput (input : JsVal) : Except String JsVal :=
  let result := deepCopy (.obj (spreadIntoF
    (.cons "vp" (.obj (spreadIntoF .nil (jget input "vp"))) .nil) input))
  match getOwn result "vp" with
  | some (.obj _) =>
    let contextEntries := dedupL (filterNotEmptyL
      (appendL (asArrayL (jget input "context"))
        (appendL (asArrayL (jget input "@context")) (asArrayL (jget (jget input "vp") "@context")))))
    let r1 := delOwn (delOwn (setVpField result "@context" (.arr contextEntries)) "context") "@context"
    let types := dedupL (filterNotEmptyL
      (appendL (asArrayL (jget input "type")) (asArrayL (jget (jget input "vp") "type"))))
    let r2 := delOwn (setVpField r1 "type" (.arr types)) "type"
    let r5 := transformExpStep input (transformNbfStep input (transformIdStep input r2))
    .ok (transformPresAudStep input (transformPresHolderStep input (transformPresCredsStep r5)))
  | _ => .error "TypeError"

/-! ### literal builders for concrete inputs -/

def jsFieldsOf : List (String × JsVal) → JsFields
  | [] => .nil
  | (k, v) :: rest => .cons k v (jsFieldsOf rest)

def jsObj (l : List (String × JsVal)) : JsVal := .obj (jsFieldsOf l)

def jsListOf : List JsVal → JsList
  | [] => .nil
  | v :: rest => .cons v (jsListOf rest)

def jsArr (l : List JsVal) : JsVal := .arr (jsListOf l)

/-- a JSON.parse / decodeJWT capability that always fails. -/
def noParse : String → Option JsVal := fun _ => none

/-! ### basic laws of the object operations -/

theorem getF_setF : ∀ (fs : JsFields) (k k' : String) (x : JsVal),
    getF (setF fs k x) k' = if k = k' then some x else getF fs k'
  | .nil, k, k', x => by
      simp only [setF, getF]
  | .cons k0 v0 rest, k, k', x => by
      simp only [setF]
      by_cases h0 : k0 = k
      · subst h0
        simp only [if_pos rfl, getF]
        by_cases h : k0 = k' <;> simp [h]
      · rw [if_neg h0]
        simp only [getF]
        by_cases h1 : k0 = k'
        · subst h1
          have : ¬ k = k0 := fun h => h0 h.symm
          simp [this]
        · simp only [if_neg h1, getF_setF rest]

theorem getF_delF : ∀ (fs : JsFields) (k k' : String),
    getF (delF fs k) k' = if k = k' then none else getF fs k'
  | .nil, k, k' => by simp only [delF, getF]; by_cases h : k = k' <;> simp [h]
  | .cons k0 v0 rest, k, k' => by
      simp only [delF]
      by_cases h0 : k0 = k
      · subst h0
        rw [if_pos rfl, getF_delF rest]
        by_cases h1 : k0 = k'
        · subst h1; simp
        · simp [getF, h1]
      · rw [if_neg h0]
        simp only [getF]
        by_cases h1 : k0 = k'
        · subst h1
          have hkk : ¬ k = k0 := fun hh => h0 hh.symm
          simp [hkk]
        · rw [if_neg h1, getF_delF rest]
          by_cases h2 : k = k' <;> simp [h2, getF, h1]

theorem hasF_eq_isSome_getF : ∀ (fs : JsFields) (k : String),
    hasF fs k = (getF fs k).isSome
  | .nil, k => rfl
  | .cons k0 v0 rest, k => by
      simp only [hasF, getF]
      by_cases h : k0 = k <;> simp [h, hasF_eq_isSome_getF rest]

theorem hasOwn_eq_isSome_getOwn (v : JsVal) (k : String) :
    hasOwn v k = (getOwn v k).isSome := by
  cases v <;> simp [hasOwn, getOwn, hasF_eq_isSome_getF]

theorem getOwn_setOwn_ne (v : JsVal) (k k' : String) (x : JsVal) (h : k ≠ k') :
    getOwn (setOwn v k x) k' = getOwn v k' := by
  cases v <;> simp [setOwn, getOwn, getF_setF, h]

theorem getOwn_setOwn_self (fs : JsFields) (k : String) (x : JsVal) :
    getOwn (setOwn (.obj fs) k x) k = some x := by
  simp [setOwn, getOwn, getF_setF]

theorem delOwn_obj (fs : JsFields) (k : String) :
    delOwn (.obj fs) k = .obj (delF fs k) := rfl

theorem getOwn_delOwn_ne (v : JsVal) (k k' : String) (h : k ≠ k') :
    getOwn (delOwn v k) k' = getOwn v k' := by
  cases v <;> simp [delOwn, getOwn, getF_delF, h]

theorem getOwn_delOwn_self (v : JsVal) (k : String) :
    getOwn (delOwn v k) k = none := by
  cases v <;> simp [delOwn, getOwn, getF_delF]

theorem getOwn_delOptField_ne (v : JsVal) (k1 k2 k' : String) (h : k1 ≠ k') :
    getOwn (delOptField v k1 k2) k' = getOwn v k' := by
  unfold delOptField
  cases hg : getOwn v k1 with
  | none => rfl
  | some w =>
      cases w <;> simp only []
      case obj fs => rw [getOwn_setOwn_ne _ _ _ _ h]
      all_goals rfl

/-! ### frame lemmas: each reconciliation step only touches its own keys -/

theorem credSubjectStep_frame (input r : JsVal) (k : String)
    (h1 : k ≠ "credentialSubject") (h2 : k ≠ "sub") (h3 : k ≠ "vc") :
    getOwn (credSubjectStep input r) k = getOwn r k := by
  unfold credSubjectStep
  rw [getOwn_delOptField_ne _ _ _ _ h3.symm]
  split
  · rw [getOwn_delOwn_ne _ _ _ h2.symm, getOwn_setOwn_ne _ _ _ _ h1.symm,
      getOwn_setOwn_ne _ _ _ _ h1.symm]
  · rw [getOwn_setOwn_ne _ _ _ _ h1.symm]

theorem credIssuerStep_frame (input r : JsVal) (k : String)
    (h1 : k ≠ "issuer") (h2 : k ≠ "iss") :
    getOwn (credIssuerStep input r) k = getOwn r k := by
  unfold credIssuerStep
  split
  · split
    · rw [getOwn_delOwn_ne _ _ _ h2.symm, getOwn_setOwn_ne _ _ _ _ h1.symm]
    · rw [getOwn_setOwn_ne _ _ _ _ h1.symm]
  · rfl

theorem credIdStep_frame (input r : JsVal) (k : String)
    (h1 : k ≠ "id") (h2 : k ≠ "jti") :
    getOwn (credIdStep input r) k = getOwn r k := by
  unfold credIdStep
  split
  · rw [getOwn_delOwn_ne _ _ _ h2.symm, getOwn_setOwn_ne _ _ _ _ h1.symm]
  · rfl

theorem credTypeStep_frame (r : JsVal) (k : String)
    (h1 : k ≠ "type") (h2 : k ≠ "vc") :
    getOwn (credTypeStep r) k = getOwn r k := by
  unfold credTypeStep
  rw [getOwn_delOptField_ne _ _ _ _ h2.symm, getOwn_setOwn_ne _ _ _ _ h1.symm]

theorem credContextStep_frame (input r : JsVal) (k : String)
    (h1 : k ≠ "@context") (h2 : k ≠ "context") (h3 : k ≠ "vc") :
    getOwn (credContextStep input r) k = getOwn r k := by
  unfold credContextStep
  rw [getOwn_delOptField_ne _ _ _ _ h3.symm, getOwn_delOwn_ne _ _ _ h2.symm,
    getOwn_setOwn_ne _ _ _ _ h1.symm]

theorem credDateStep_frame (input r r' : JsVal) (k : String)
    (hok : credDateStep input r = .ok r')
    (h1 : k ≠ "issuanceDate") (h2 : k ≠ "nbf") (h3 : k ≠ "iat") :
    getOwn r' k = getOwn r k := by
  unfold credDateStep at hok
  split at hok
  · split at hok
    · exact absurd hok (by simp)
    · split at hok
      · exact absurd hok (by simp)
      · rw [Except.ok.injEq] at hok
        subst hok
        split
        · rw [getOwn_delOwn_ne _ _ _ h2.symm, getOwn_setOwn_ne _ _ _ _ h1.symm]
        · rw [getOwn_delOwn_ne _ _ _ h3.symm, getOwn_setOwn_ne _ _ _ _ h1.symm]
  · rw [Except.ok.injEq] at hok
    subst hok
    rfl

theorem credExpStep_frame (input r r' : JsVal) (k : String)
    (hok : credExpStep input r = .ok r')
    (h1 : k ≠ "expirationDate") (h2 : k ≠ "exp") :
    getOwn r' k = getOwn r k := by
  unfold credExpStep at hok
  split at hok
  · split at hok
    · exact absurd hok (by simp)
    · split at hok
      · exact absurd hok (by simp)
      · rw [Except.ok.injEq] at hok
        subst hok
        rw [getOwn_delOwn_ne _ _ _ h2.symm, getOwn_setOwn_ne _ _ _ _ h1.symm]
  · rw [Except.ok.injEq] at hok
    subst hok
    rfl

theorem credVcCleanupStep_frame (r : JsVal) (k : String) (h1 : k ≠ "vc") :
    getOwn (credVcCleanupStep r) k = getOwn r k := by
  unfold credVcCleanupStep
  split
  · rw [getOwn_delOwn_ne _ _ _ h1.symm]
  · rfl

/-! ### claim C6 -/

/-- C6: `transformCredentialInput` rejects every input whose `credentialSubject`
    is an array with `Error('credentialSubject of type array not supported')`,
    and the check is the first statement of the function, so in the `Except`
    model the error pre-empts every other transformation rule. -/
theorem C6_array_subject_rejected (v : JsVal)
    (h : isArrB (jget v "credentialSubject") = true) :
    transformCredentialInput v = .error "credentialSubject of type array not supported" := by
  unfold transformCredentialInput
  rw [if_pos h]

/-- witness for C6 at `{credentialSubject: [{id:"a"}]}`. -/
theorem C6_array_subject_rejected_witness :
    transformCredentialInput (jsObj [("credentialSubject", jsArr [jsObj [("id", .str "a")]])])
      = .error "credentialSubject of type array not supported" :=
  C6_array_subject_rejected _ rfl

/-! ### claim C5 -/

/-- C5: for every string input, (a) if it fails the JWT pattern and the injected
    `JSON.parse` fails on it, or (b) if it matches the pattern and the injected
    JWT decoder fails on it, `normalizeCredential` raises
    `TypeError('unknown credential format')`; in particular it does so on
    `"not.a.valid.jwt.token"` (four dots, so the three-segment pattern fails,
    and real `JSON.parse` rejects it). -/
theorem C5_format_error (jp dec : String → Option JsVal) (s : String) :
    (jwtFormatTest s = false → jp s = none →
      normalizeCredential jp dec (.str s) = .error "unknown credential format")
    ∧ (jwtFormatTest s = true → dec s = none →
      normalizeCredential jp dec (.str s) = .error "unknown credential format")
    ∧ (jp "not.a.valid.jwt.token" = none →
      normalizeCredential jp dec (.str "not.a.valid.jwt.token")
        = .error "unknown credential format") := by
  have core : ∀ t : String, (jwtFormatTest t = false → jp t = none →
      normalizeCredential jp dec (.str t) = .error "unknown credential format")
      ∧ (jwtFormatTest t = true → dec t = none →
      normalizeCredential jp dec (.str t) = .error "unknown credential format") := by
    intro t
    constructor
    · intro hpat hjp
      unfold normalizeCredential credFuelOf normalizeCredentialFuel
      simp only [hpat, hjp, Bool.false_eq_true, if_false]
    · intro hpat hdec
      unfold normalizeCredential credFuelOf normalizeCredentialFuel
      simp only [hpat, if_true, normalizeJwtCredential, hdec]
  refine ⟨(core s).1, (core s).2, fun hjp => (core "not.a.valid.jwt.token").1 (by rfl) hjp⟩

/-- witness for C5: both failure modes at concrete inputs. -/
theorem C5_format_error_witness :
    normalizeCredential noParse noParse (.str "not.a.valid.jwt.token")
        = .error "unknown credential format"
    ∧ normalizeCredential noParse noParse (.str "aaa.bbb.ccc")
        = .error "unknown credential format" :=
  ⟨(C5_format_error noParse noParse "not.a.valid.jwt.token").2.2 rfl,
   (C5_format_error noParse noParse "aaa.bbb.ccc").2.1 (by rfl) rfl⟩

/-! ### claim C2 -/

/-- the legacy attestation object of the claim. -/
def c2Input : JsVal := jsObj [("sub", .str "did:x"), ("iss", .str "did:y"),
  ("claim", jsObj [("degree", .str "BA")]), ("iat", .num 1600000000)]

/-- what the code actually returns for `c2Input`. -/
def c2Actual : JsVal := jsObj [("proof", jsObj []), ("nbf", .num 1600000000),
  ("credentialSubject", jsObj [("id", .str "did:x")]),
  ("issuer", jsObj [("id", .str "did:y")]),
  ("type", jsArr [.str "VerifiableCredential"]), ("@context", jsArr []),
  ("issuanceDate", .str "2020-09-13T12:26:40.000Z")]

/-- C2 is a code bug: `normalizeCredential` on the claim's legacy attestation
    object returns `credentialSubject = {id:"did:x"}` — the legacy `claim`
    payload (`degree:"BA"`) is dropped, because line 91 of converters.ts
    rebuilds the subject from `input` (which has no `credentialSubject`/`vc`)
    instead of from the attestation-converted `result`, and line 96 then
    deletes `result.vc.credentialSubject` where the claim data had been moved —
    and the consumed time claim is **not** removed: the legacy branch renamed
    `iat` to `nbf` in `result`, but lines 123-129 consult `input` (which has
    `iat`, not `nbf`) and delete the absent `result.iat`, leaving
    `nbf: 1600000000` in the output.  `issuer.id`, `type` and `issuanceDate`
    agree with the claim. -/
theorem C2_legacy_attestation_eval :
    normalizeCredential noParse noParse c2Input = .ok (c2Actual, c2Input)
    ∧ getOwn c2Actual "credentialSubject" = some (jsObj [("id", .str "did:x")])
    ∧ getOwn c2Actual "nbf" = some (.num 1600000000)
    ∧ getOwn c2Actual "issuer" = some (jsObj [("id", .str "did:y")])
    ∧ getOwn c2Actual "type" = some (jsArr [.str "VerifiableCredential"])
    ∧ getOwn c2Actual "issuanceDate" = some (.str "2020-09-13T12:26:40.000Z") :=
  ⟨rfl, rfl, rfl, rfl, rfl, rfl⟩

/-! ### claim C1 -/

/-- a legacy attestation object that also carries a `vc` field. -/
def c1Input : JsVal := jsObj [("sub", .str "did:x"), ("iss", .str "did:y"),
  ("claim", jsObj [("degree", .str "BA")]), ("iat", .num 1600000000),
  ("vc", jsObj [("p", .num 1)])]

def c1InputAfter : JsVal := jsObj [("sub", .str "did:x"), ("iss", .str "did:y"),
  ("claim", jsObj [("degree", .str "BA")]), ("iat", .num 1600000000),
  ("vc", jsObj [("p", .num 1)]), ("issVc", jsObj [("p", .num 1)])]

/-- C1 is a code bug: `normalizeCredential` does **not** leave the caller's
    input unchanged on every input.  For a legacy attestation object with a
    truthy `vc`, line 79 of converters.ts (`if (vc) payload.issVc = vc` inside
    `attestationToVcFormat`) is executed on the caller's original object
    (line 87 passes `input`, not the deep copy), so the call adds an own
    `issVc` property to the caller's input; the assignment is useless for the
    result, which is built from `rest` and never carries `issVc`.  The deep
    copy protects every other path. -/
theorem C1_input_mutated :
    (normalizeCredential noParse noParse c1Input).map Prod.snd = .ok c1InputAfter
    ∧ c1InputAfter ≠ c1Input
    ∧ getOwn c1Input "issVc" = none
    ∧ getOwn c1InputAfter "issVc" = some (jsObj [("p", .num 1)]) :=
  ⟨rfl, by decide, rfl, rfl⟩

/-! ### claim C7, counterexample part -/

/-- C7's general clause fails as stated: for `nbf = 8640000000001` seconds the
    millisecond value exceeds the ECMAScript Date range (8.64e15 ms), so
    `new Date(nbf * 1000).toISOString()` throws RangeError and normalization
    aborts instead of round-tripping. -/
theorem C7_counterexample :
    normalizeJwtCredentialPayload (jsObj [("nbf", .num 8640000000001)])
      = .error "Invalid time value" := rfl

/-! ### frame lemmas for the transform steps -/

theorem setVcField_frame (r : JsVal) (k : String) (x : JsVal) (k' : String) (h : k' ≠ "vc") :
    getOwn (setVcField r k x) k' = getOwn r k' := by
  unfold setVcField
  split
  · rw [getOwn_setOwn_ne _ _ _ _ h.symm]
  · rfl

theorem transformIdStep_frame (input r : JsVal) (k : String)
    (h1 : k ≠ "jti") (h2 : k ≠ "id") :
    getOwn (transformIdStep input r) k = getOwn r k := by
  unfold transformIdStep
  split
  · rw [getOwn_delOwn_ne _ _ _ h2.symm, getOwn_setOwn_ne _ _ _ _ h1.symm]
  · rfl

theorem transformNbfStep_frame (input r : JsVal) (k : String)
    (h1 : k ≠ "nbf") (h2 : k ≠ "issuanceDate") :
    getOwn (transformNbfStep input r) k = getOwn r k := by
  unfold transformNbfStep
  split
  · split
    · rw [getOwn_delOwn_ne _ _ _ h2.symm, getOwn_setOwn_ne _ _ _ _ h1.symm]
    · rfl
  · rfl

theorem transformExpStep_frame (input r : JsVal) (k : String)
    (h1 : k ≠ "exp") (h2 : k ≠ "expirationDate") :
    getOwn (transformExpStep input r) k = getOwn r k := by
  unfold transformExpStep
  split
  · split
    · rw [getOwn_delOwn_ne _ _ _ h2.symm, getOwn_setOwn_ne _ _ _ _ h1.symm]
    · rfl
  · rfl

theorem issuerDelId_frame (r : JsVal) (k : String) (h : k ≠ "issuer") :
    getOwn (issuerDelId r) k = getOwn r k := by
  unfold issuerDelId
  split
  · rw [getOwn_setOwn_ne _ _ _ _ h.symm]
  · rfl

theorem issuerCleanup_frame (r : JsVal) (k : String) (h : k ≠ "issuer") :
    getOwn (issuerCleanup r) k = getOwn r k := by
  unfold issuerCleanup
  split
  · rw [getOwn_delOwn_ne _ _ _ h.symm]
  · rw [getOwn_delOwn_ne _ _ _ h.symm]
  · rfl

theorem transformIssuerStep_frame (input r : JsVal) (k : String)
    (h1 : k ≠ "iss") (h2 : k ≠ "issuer") :
    getOwn (transformIssuerStep input r) k = getOwn r k := by
  unfold transformIssuerStep
  split
  · split
    · rw [issuerCleanup_frame _ _ h2, issuerDelId_frame _ _ h2,
        getOwn_setOwn_ne _ _ _ _ h1.symm]
    · split
      · rw [getOwn_delOwn_ne _ _ _ h2.symm, getOwn_setOwn_ne _ _ _ _ h1.symm]
      · rfl
  · rfl

/-! ### claim C10 -/

/-- C10: for every (non-array) object input to `transformCredentialInput` with
    no truthy `sub` and no `id` value on its top-level `credentialSubject`, the
    returned object carries an own `sub` property whose value is `undefined`
    (line 213 executes `result.sub = input.credentialSubject?.id` with an
    undefined right-hand side, which still creates the own property). -/
theorem C10_own_undefined_sub (fs : JsFields)
    (h1 : truthy (jget (.obj fs) "sub") = false)
    (h2 : jget (jget (.obj fs) "credentialSubject") "id" = .undef)
    (out : JsVal) (hok : transformCredentialInput (.obj fs) = .ok out) :
    hasOwn out "sub" = true ∧ getOwn out "sub" = some .undef := by
  simp only [transformCredentialInput] at hok
  split at hok
  · exact absurd hok (by simp)
  · split at hok
    case h_2 => exact absurd hok (by simp)
    case h_1 _ vcg hvc =>
      rw [Except.ok.injEq] at hok
      subst hok
      have hsub : getOwn (transformIssuerStep (.obj fs) (transformExpStep (.obj fs)
          (transformNbfStep (.obj fs) (transformIdStep (.obj fs)
          (delOwn (setVcField (delOwn (delOwn (setVcField (delOwn (setVcField
            (if (!truthy (jget (.obj fs) "sub")) = true then
              (setOwn (deepCopy (.obj (spreadIntoF
                  (.cons "vc" (.obj (spreadIntoF .nil (jget (.obj fs) "vc"))) .nil) (.obj fs))))
                "sub" (jget (jget (.obj fs) "credentialSubject") "id"),
               delOwn (objSpread2 (jget (.obj fs) "credentialSubject")
                 (jget (jget (.obj fs) "vc") "credentialSubject")) "id")
            else
              (deepCopy (.obj (spreadIntoF
                  (.cons "vc" (.obj (spreadIntoF .nil (jget (.obj fs) "vc"))) .nil) (.obj fs))),
               objSpread2 (jget (.obj fs) "credentialSubject")
                 (jget (jget (.obj fs) "vc") "credentialSubject"))).1
            "credentialSubject"
            (if (!truthy (jget (.obj fs) "sub")) = true then
              (setOwn (deepCopy (.obj (spreadIntoF
                  (.cons "vc" (.obj (spreadIntoF .nil (jget (.obj fs) "vc"))) .nil) (.obj fs))))
                "sub" (jget (jget (.obj fs) "credentialSubject") "id"),
               delOwn (objSpread2 (jget (.obj fs) "credentialSubject")
                 (jget (jget (.obj fs) "vc") "credentialSubject")) "id")
            else
              (deepCopy (.obj (spreadIntoF
                  (.cons "vc" (.obj (spreadIntoF .nil (jget (.obj fs) "vc"))) .nil) (.obj fs))),
               objSpread2 (jget (.obj fs) "credentialSubject")
                 (jget (jget (.obj fs) "vc") "credentialSubject"))).2)
            "credentialSubject")
            "@context" (.arr (dedupL (filterNotEmptyL
              (appendL (asArrayL (jget (.obj fs) "context"))
                (appendL (asArrayL (jget (.obj fs) "@context"))
                  (asArrayL (jget (jget (.obj fs) "vc") "@context"))))))))
            "context") "@context")
            "type" (.arr (dedupL (filterNotEmptyL
              (appendL (asArrayL (jget (.obj fs) "type"))
                (asArrayL (jget (jget (.obj fs) "vc") "type")))))))
            "type"))))) "sub" = some .undef := by
        rw [transformIssuerStep_frame _ _ _ (by decide) (by decide)]
        rw [transformExpStep_frame _ _ _ (by decide) (by decide)]
        rw [transformNbfStep_frame _ _ _ (by decide) (by decide)]
        rw [transformIdStep_frame _ _ _ (by decide) (by decide)]
        rw [getOwn_delOwn_ne _ _ _ (by decide)]
        rw [setVcField_frame _ _ _ _ (by decide)]
        rw [getOwn_delOwn_ne _ _ _ (by decide)]
        rw [getOwn_delOwn_ne _ _ _ (by decide)]
        rw [setVcField_frame _ _ _ _ (by decide)]
        rw [getOwn_delOwn_ne _ _ _ (by decide)]
        rw [setVcField_frame _ _ _ _ (by decide)]
        rw [h1]
        simp only [Bool.not_false, if_pos rfl, h2, deepCopy]
        exact getOwn_setOwn_self _ _ _
      refine ⟨?_, hsub⟩
      rw [hasOwn_eq_isSome_getOwn, hsub]
      rfl

def c10Out : JsVal := jsObj [("vc", jsObj [("credentialSubject", jsObj []),
  ("@context", jsArr []), ("type", jsArr [])]), ("sub", .undef)]

/-- witness for C10 at the empty object. -/
theorem C10_own_undefined_sub_witness :
    hasOwn c10Out "sub" = true ∧ getOwn c10Out "sub" = some .undef :=
  C10_own_undefined_sub .nil rfl rfl c10Out rfl

/-! ### claim C8 -/

theorem setVcField_reduce (rs g : JsFields) (k : String) (x : JsVal)
    (h : getF rs "vc" = some (.obj g)) :
    setVcField (.obj rs) k x = .obj (setF rs "vc" (.obj (setF g k x))) := by
  unfold setVcField
  simp only [getOwn, h, setOwn]

/-- C8 as stated is false: `transformCredentialInput` promotes the id of the
    **top-level** `credentialSubject` (line 213 reads
    `input.credentialSubject?.id`), not the id of the merged subject.  With
    only `vc.credentialSubject.id = "V"` present, the merged subject's id is
    `"V"`, but the promoted `sub` is `undefined`, and `"V"` is deleted from
    the stored subject. -/
def c8In : JsVal := jsObj [("vc", jsObj [("credentialSubject", jsObj [("id", .str "V")])])]

def c8Out : JsVal := jsObj [("vc", jsObj [("credentialSubject", jsObj []),
  ("@context", jsArr []), ("type", jsArr [])]), ("sub", .undef)]

theorem C8_counterexample :
    transformCredentialInput c8In = .ok c8Out
    ∧ getOwn c8Out "sub" = some .undef
    ∧ getOwn c8Out "sub" ≠ some (.str "V")
    ∧ jget (jget c8In "vc") "credentialSubject" = jsObj [("id", .str "V")] :=
  ⟨rfl, rfl, by decide, rfl⟩

/-- C8 amended: for every object input with no truthy `sub`, the value of
    `input.credentialSubject?.id` (the **top-level** subject's id, possibly
    `undefined`) becomes the own `sub` claim of the result; `id` is deleted
    from the merged subject, which is stored at `vc.credentialSubject`; and the
    top-level `credentialSubject` is deleted. -/
theorem C8_amended_subject_transform (fs : JsFields)
    (h1 : truthy (jget (.obj fs) "sub") = false)
    (out : JsVal) (hok : transformCredentialInput (.obj fs) = .ok out) :
    getOwn out "sub" = some (jget (jget (.obj fs) "credentialSubject") "id")
    ∧ jget (jget out "vc") "credentialSubject"
        = delOwn (objSpread2 (jget (.obj fs) "credentialSubject")
            (jget (jget (.obj fs) "vc") "credentialSubject")) "id"
    ∧ hasOwn out "credentialSubject" = false := by
  simp only [transformCredentialInput] at hok
  split at hok
  · exact absurd hok (by simp)
  · split at hok
    case h_2 => exact absurd hok (by simp)
    case h_1 _ vcg hvc =>
      rw [Except.ok.injEq] at hok
      subst hok
      rw [h1]
      simp only [Bool.not_false, eq_self_iff_true, if_true, deepCopy]
      set RS := spreadIntoF (.cons "vc" (.obj (spreadIntoF .nil (jget (.obj fs) "vc"))) .nil)
        (.obj fs) with hRS
      set u := jget (jget (.obj fs) "credentialSubject") "id" with hu
      set p2 := delOwn (objSpread2 (jget (.obj fs) "credentialSubject")
        (jget (jget (.obj fs) "vc") "credentialSubject")) "id" with hp2
      set C := JsVal.arr (dedupL (filterNotEmptyL
        (appendL (asArrayL (jget (.obj fs) "context"))
          (appendL (asArrayL (jget (.obj fs) "@context"))
            (asArrayL (jget (jget (.obj fs) "vc") "@context")))))) with hC
      set T := JsVal.arr (dedupL (filterNotEmptyL
        (appendL (asArrayL (jget (.obj fs) "type"))
          (asArrayL (jget (jget (.obj fs) "vc") "type"))))) with hT
      have hvcRS : getF RS "vc" = some (.obj vcg) := hvc
      -- step-by-step reduction of the vc-directed writes
      have e1 : setOwn (JsVal.obj RS) "sub" u = .obj (setF RS "sub" u) := rfl
      have g1 : getF (setF RS "sub" u) "vc" = some (.obj vcg) := by
        rw [getF_setF]
        simp only [if_neg (by decide : ¬ ("sub" : String) = "vc")]
        exact hvcRS
      have e2 : setVcField (.obj (setF RS "sub" u)) "credentialSubject" p2
          = .obj (setF (setF RS "sub" u) "vc" (.obj (setF vcg "credentialSubject" p2))) :=
        setVcField_reduce _ _ _ _ g1
      have g2 : getF (delF (setF (setF RS "sub" u) "vc"
            (.obj (setF vcg "credentialSubject" p2))) "credentialSubject") "vc"
          = some (.obj (setF vcg "credentialSubject" p2)) := by
        rw [getF_delF]
        simp only [if_neg (by decide : ¬ ("credentialSubject" : String) = "vc")]
        rw [getF_setF]
        simp
      have e3 : setVcField (.obj (delF (setF (setF RS "sub" u) "vc"
            (.obj (setF vcg "credentialSubject" p2))) "credentialSubject")) "@context" C
          = .obj (setF (delF (setF (setF RS "sub" u) "vc"
              (.obj (setF vcg "credentialSubject" p2))) "credentialSubject") "vc"
              (.obj (setF (setF vcg "credentialSubject" p2) "@context" C))) :=
        setVcField_reduce _ _ _ _ g2
      have g3 : getF (delF (delF (setF (delF (setF (setF RS "sub" u) "vc"
              (.obj (setF vcg "credentialSubject" p2))) "credentialSubject") "vc"
              (.obj (setF (setF vcg "credentialSubject" p2) "@context" C))) "context")
              "@context") "vc"
          = some (.obj (setF (setF vcg "credentialSubject" p2) "@context" C)) := by
        rw [getF_delF]
        simp only [if_neg (by decide : ¬ ("@context" : String) = "vc")]
        rw [getF_delF]
        simp only [if_neg (by decide : ¬ ("context" : String) = "vc")]
        rw [getF_setF]
        simp
      have e4 : setVcField (.obj (delF (delF (setF (delF (setF (setF RS "sub" u) "vc"
              (.obj (setF vcg "credentialSubject" p2))) "credentialSubject") "vc"
              (.obj (setF (setF vcg "credentialSubject" p2) "@context" C))) "context")
              "@context")) "type" T
          = .obj (setF (delF (delF (setF (delF (setF (setF RS "sub" u) "vc"
              (.obj (setF vcg "credentialSubject" p2))) "credentialSubject") "vc"
              (.obj (setF (setF vcg "credentialSubject" p2) "@context" C))) "context")
              "@context") "vc"
              (.obj (setF (setF (setF vcg "credentialSubject" p2) "@context" C) "type" T))) :=
        setVcField_reduce _ _ _ _ g3
      rw [e1, e2]
      simp only [delOwn_obj]
      rw [e3]
      simp only [delOwn_obj]
      rw [e4]
      set BIGF := setF (delF (delF (setF (delF (setF (setF RS "sub" u) "vc"
          (.obj (setF vcg "credentialSubject" p2))) "credentialSubject") "vc"
          (.obj (setF (setF vcg "credentialSubject" p2) "@context" C))) "context")
          "@context") "vc"
          (.obj (setF (setF (setF vcg "credentialSubject" p2) "@context" C) "type" T)) with hBIGF
      have frameTail : ∀ k : String, k ≠ "jti" → k ≠ "id" → k ≠ "nbf" → k ≠ "issuanceDate" →
          k ≠ "exp" → k ≠ "expirationDate" → k ≠ "iss" → k ≠ "issuer" → k ≠ "type" →
          getOwn (transformIssuerStep (.obj fs) (transformExpStep (.obj fs)
            (transformNbfStep (.obj fs) (transformIdStep (.obj fs)
              (delOwn (.obj BIGF) "type"))))) k
          = getF BIGF k := by
        intro k ha hb hc hd he hf hg hh hi
        rw [transformIssuerStep_frame _ _ _ hg hh, transformExpStep_frame _ _ _ he hf,
          transformNbfStep_frame _ _ _ hc hd, transformIdStep_frame _ _ _ ha hb,
          getOwn_delOwn_ne _ _ _ hi.symm]
        rfl
      refine ⟨?_, ?_, ?_⟩
      · rw [frameTail "sub" (by decide) (by decide) (by decide) (by decide) (by decide)
          (by decide) (by decide) (by decide) (by decide)]
        rw [hBIGF, getF_setF]
        simp only [if_neg (by decide : ¬ ("vc" : String) = "sub")]
        rw [getF_delF]
        simp only [if_neg (by decide : ¬ ("@context" : String) = "sub")]
        rw [getF_delF]
        simp only [if_neg (by decide : ¬ ("context" : String) = "sub")]
        rw [getF_setF]
        simp only [if_neg (by decide : ¬ ("vc" : String) = "sub")]
        rw [getF_delF]
        simp only [if_neg (by decide : ¬ ("credentialSubject" : String) = "sub")]
        rw [getF_setF]
        simp only [if_neg (by decide : ¬ ("vc" : String) = "sub")]
        rw [getF_setF]
        simp
      · have hvcval : getOwn (transformIssuerStep (.obj fs) (transformExpStep (.obj fs)
            (transformNbfStep (.obj fs) (transformIdStep (.obj fs)
              (delOwn (.obj BIGF) "type"))))) "vc"
            = some (.obj (setF (setF (setF vcg "credentialSubject" p2) "@context" C)
                "type" T)) := by
          rw [frameTail "vc" (by decide) (by decide) (by decide) (by decide) (by decide)
            (by decide) (by decide) (by decide) (by decide)]
          rw [hBIGF, getF_setF]
          simp
        unfold jget
        rw [hvcval]
        simp only []
        rw [getOwn, getF_setF]
        simp only [if_neg (by decide : ¬ ("type" : String) = "credentialSubject")]
        rw [getF_setF]
        simp only [if_neg (by decide : ¬ ("@context" : String) = "credentialSubject")]
        rw [getF_setF]
        simp
      · rw [hasOwn_eq_isSome_getOwn]
        rw [frameTail "credentialSubject" (by decide) (by decide) (by decide) (by decide)
          (by decide) (by decide) (by decide) (by decide) (by decide)]
        rw [hBIGF, getF_setF]
        simp only [if_neg (by decide : ¬ ("vc" : String) = "credentialSubject")]
        rw [getF_delF]
        simp only [if_neg (by decide : ¬ ("@context" : String) = "credentialSubject")]
        rw [getF_delF]
        simp only [if_neg (by decide : ¬ ("context" : String) = "credentialSubject")]
        rw [getF_setF]
        simp only [if_neg (by decide : ¬ ("vc" : String) = "credentialSubject")]
        rw [getF_delF]
        simp

def c8Fs : JsFields := jsFieldsOf [("vc", jsObj [("credentialSubject", jsObj [("id", .str "V")])])]

/-- witness for C8's amended theorem at `c8In`. -/
theorem C8_amended_subject_transform_witness :
    getOwn c8Out "sub" = some (jget (jget (.obj c8Fs) "credentialSubject") "id")
    ∧ jget (jget c8Out "vc") "credentialSubject"
        = delOwn (objSpread2 (jget (.obj c8Fs) "credentialSubject")
            (jget (jget (.obj c8Fs) "vc") "credentialSubject")) "id"
    ∧ hasOwn c8Out "credentialSubject" = false :=
  C8_amended_subject_transform c8Fs rfl c8Out rfl

/-! ### claim C3 -/

theorem setOwn_obj (fs : JsFields) (k : String) (x : JsVal) :
    setOwn (.obj fs) k x = .obj (setF fs k x) := rfl

/-- `credLegacyStep` keeps an object input an object. -/
theorem credLegacyStep_obj (fs : JsFields) :
    ∃ gs : JsFields, (credLegacyStep (.obj fs)).1 = .obj gs := by
  unfold credLegacyStep
  split
  · exact ⟨_, rfl⟩
  · exact ⟨fs, rfl⟩

/-- successful payload normalization factors through the step pipeline. -/
theorem normCred_ok_chain (input out rest : JsVal)
    (hok : normalizeJwtCredentialPayload input = .ok (out, rest)) :
    ∃ r6 r7 : JsVal,
      credDateStep input (credContextStep input (credTypeStep (credIdStep input
        (credIssuerStep input (credSubjectStep input (credLegacyStep input).1))))) = .ok r6
      ∧ credExpStep input r6 = .ok r7
      ∧ out = credVcCleanupStep r7 ∧ rest = (credLegacyStep input).2 := by
  simp only [normalizeJwtCredentialPayload] at hok
  split at hok
  · exact absurd hok (by simp)
  case h_2 r6 hd =>
    split at hok
    · exact absurd hok (by simp)
    case h_2 r7 he =>
      rw [Except.ok.injEq, Prod.mk.injEq] at hok
      exact ⟨r6, r7, hd, he, hok.1.symm, hok.2.symm⟩

/-- a key none of the steps after the issuer step writes keeps, in the final
    output of a successful payload normalization, the value it has right after
    the issuer step. -/
theorem normCred_getOwn_eq_issuerStep (input out rest : JsVal) (k : String)
    (hok : normalizeJwtCredentialPayload input = .ok (out, rest))
    (h1 : k ≠ "id") (h2 : k ≠ "jti") (h3 : k ≠ "type") (h4 : k ≠ "vc")
    (h5 : k ≠ "@context") (h6 : k ≠ "context") (h7 : k ≠ "issuanceDate")
    (h8 : k ≠ "nbf") (h9 : k ≠ "iat") (h10 : k ≠ "expirationDate") (h11 : k ≠ "exp") :
    getOwn out k
      = getOwn (credIssuerStep input (credSubjectStep input (credLegacyStep input).1)) k := by
  obtain ⟨r6, r7, hd, he, ho, -⟩ := normCred_ok_chain input out rest hok
  subst ho
  rw [credVcCleanupStep_frame _ _ h4, credExpStep_frame _ _ _ _ he h10 h11,
    credDateStep_frame _ _ _ _ hd h7 h8 h9, credContextStep_frame _ _ _ h5 h6 h4,
    credTypeStep_frame _ _ h3 h4, credIdStep_frame _ _ _ h1 h2]

/-- exact effect of converters.ts lines 90-96 on the `credentialSubject` and
    `sub` keys of an object-valued `result`. -/
theorem credSubjectStep_subject (input : JsVal) (rfs : JsFields) :
    getOwn (credSubjectStep input (.obj rfs)) "credentialSubject"
      = some (if truthy (jget input "sub")
              && !truthy (jget (jget input "credentialSubject") "id") then
          setOwn (objSpread2 (jget input "credentialSubject")
            (jget (jget input "vc") "credentialSubject")) "id" (jget input "sub")
        else objSpread2 (jget input "credentialSubject")
          (jget (jget input "vc") "credentialSubject"))
    ∧ getOwn (credSubjectStep input (.obj rfs)) "sub"
      = (if truthy (jget input "sub")
            && !truthy (jget (jget input "credentialSubject") "id") then
          none
        else getOwn (.obj rfs) "sub") := by
  simp only [credSubjectStep]
  by_cases hcond : (truthy (jget input "sub")
      && !truthy (jget (jget input "credentialSubject") "id")) = true
  · rw [if_pos hcond, if_pos hcond, if_pos hcond]
    constructor
    · rw [getOwn_delOptField_ne _ _ _ _ (by decide : ("vc" : String) ≠ "credentialSubject"),
        getOwn_delOwn_ne _ _ _ (by decide : ("sub" : String) ≠ "credentialSubject"),
        setOwn_obj, getOwn_setOwn_self]
    · rw [getOwn_delOptField_ne _ _ _ _ (by decide : ("vc" : String) ≠ "sub"),
        getOwn_delOwn_self]
  · rw [if_neg hcond, if_neg hcond, if_neg hcond]
    constructor
    · rw [getOwn_delOptField_ne _ _ _ _ (by decide : ("vc" : String) ≠ "credentialSubject"),
        getOwn_setOwn_self]
    · rw [getOwn_delOptField_ne _ _ _ _ (by decide : ("vc" : String) ≠ "sub"),
        getOwn_setOwn_ne _ _ _ _ (by decide : ("credentialSubject" : String) ≠ "sub")]

def c3aFs : JsFields := jsFieldsOf [("sub", .str "S"),
  ("credentialSubject", jsObj [("id", .str "C")])]

def c3aOut : JsVal :=
  match normalizeJwtCredentialPayload (.obj c3aFs) with
  | .error _ => .undef
  | .ok p => p.1

def c3aRest : JsVal :=
  match normalizeJwtCredentialPayload (.obj c3aFs) with
  | .error _ => .undef
  | .ok p => p.2

def c3InB : JsVal := jsObj [("sub", .str "S"),
  ("vc", jsObj [("credentialSubject", jsObj [("id", .str "V")])])]

def c3bOut : JsVal :=
  match normalizeJwtCredentialPayload c3InB with
  | .error _ => .undef
  | .ok p => p.1

/-- C3 counterexample: on `{sub:"S", credentialSubject:{id:"C"}}` the top-level
    `sub` is NOT deleted (the delete sits inside the `if`), and on
    `{sub:"S", vc:{credentialSubject:{id:"V"}}}` the merged subject's own id
    "V" is overwritten by `sub` because line 92 checks the top-level
    `input.credentialSubject?.id`, not the merged subject's id. -/
theorem C3_counterexample :
    normalizeJwtCredentialPayload (.obj c3aFs) = .ok (c3aOut, c3aRest)
    ∧ hasOwn c3aOut "sub" = true
    ∧ getOwn c3aOut "sub" = some (.str "S")
    ∧ normalizeJwtCredentialPayload c3InB = .ok (c3bOut, c3InB)
    ∧ jget (jget (jget c3InB "vc") "credentialSubject") "id" = .str "V"
    ∧ jget (jget c3bOut "credentialSubject") "id" = .str "S" :=
  ⟨rfl, rfl, rfl, rfl, rfl, rfl⟩

/-- C3 amended: for every object input whose payload normalization succeeds,
    the output's `credentialSubject` is the spread-merge of the input's
    top-level and vc-nested subjects (vc wins); when
    `input.sub && !input.credentialSubject?.id` the merged subject additionally
    gets `id = input.sub` and the top-level `sub` is deleted; otherwise the
    merged subject is stored unchanged and `sub` keeps the value it had after
    the legacy-attestation step (it is NOT deleted). -/
theorem C3_amended_subject_merge (fs : JsFields) (out rest : JsVal)
    (hok : normalizeJwtCredentialPayload (.obj fs) = .ok (out, rest)) :
    ((truthy (jget (.obj fs) "sub")
        && !truthy (jget (jget (.obj fs) "credentialSubject") "id")) = true →
      getOwn out "credentialSubject"
        = some (setOwn (objSpread2 (jget (.obj fs) "credentialSubject")
            (jget (jget (.obj fs) "vc") "credentialSubject")) "id" (jget (.obj fs) "sub"))
      ∧ getOwn out "sub" = none)
    ∧ ((truthy (jget (.obj fs) "sub")
        && !truthy (jget (jget (.obj fs) "credentialSubject") "id")) = false →
      getOwn out "credentialSubject"
        = some (objSpread2 (jget (.obj fs) "credentialSubject")
            (jget (jget (.obj fs) "vc") "credentialSubject"))
      ∧ getOwn out "sub" = getOwn (credLegacyStep (.obj fs)).1 "sub") := by
  have hcs : getOwn out "credentialSubject"
      = getOwn (credIssuerStep (.obj fs)
          (credSubjectStep (.obj fs) (credLegacyStep (.obj fs)).1)) "credentialSubject" :=
    normCred_getOwn_eq_issuerStep _ _ _ _ hok (by decide) (by decide) (by decide)
      (by decide) (by decide) (by decide) (by decide) (by decide) (by decide)
      (by decide) (by decide)
  have hsub : getOwn out "sub"
      = getOwn (credIssuerStep (.obj fs)
          (credSubjectStep (.obj fs) (credLegacyStep (.obj fs)).1)) "sub" :=
    normCred_getOwn_eq_issuerStep _ _ _ _ hok (by decide) (by decide) (by decide)
      (by decide) (by decide) (by decide) (by decide) (by decide) (by decide)
      (by decide) (by decide)
  rw [credIssuerStep_frame _ _ _ (by decide) (by decide)] at hcs
  rw [credIssuerStep_frame _ _ _ (by decide) (by decide)] at hsub
  obtain ⟨gs, hg⟩ := credLegacyStep_obj fs
  rw [hg] at hcs hsub
  have hchar := credSubjectStep_subject (.obj fs) gs
  constructor
  · intro hc
    refine ⟨?_, ?_⟩
    · rw [hcs, hchar.1, if_pos hc]
    · rw [hsub, hchar.2, if_pos hc]
  · intro hc
    have hc' : ¬ (truthy (jget (.obj fs) "sub")
        && !truthy (jget (jget (.obj fs) "credentialSubject") "id")) = true := by
      rw [hc]; exact Bool.false_ne_true
    refine ⟨?_, ?_⟩
    · rw [hcs, hchar.1, if_neg hc']
    · rw [hsub, hchar.2, if_neg hc', hg]

/-- witness for C3's amended theorem at `{sub:"S", credentialSubject:{id:"C"}}`. -/
theorem C3_amended_subject_merge_witness :
    ((truthy (jget (.obj c3aFs) "sub")
        && !truthy (jget (jget (.obj c3aFs) "credentialSubject") "id")) = true →
      getOwn c3aOut "credentialSubject"
        = some (setOwn (objSpread2 (jget (.obj c3aFs) "credentialSubject")
            (jget (jget (.obj c3aFs) "vc") "credentialSubject")) "id" (jget (.obj c3aFs) "sub"))
      ∧ getOwn c3aOut "sub" = none)
    ∧ ((truthy (jget (.obj c3aFs) "sub")
        && !truthy (jget (jget (.obj c3aFs) "credentialSubject") "id")) = false →
      getOwn c3aOut "credentialSubject"
        = some (objSpread2 (jget (.obj c3aFs) "credentialSubject")
            (jget (jget (.obj c3aFs) "vc") "credentialSubject"))
      ∧ getOwn c3aOut "sub" = getOwn (credLegacyStep (.obj c3aFs)).1 "sub") :=
  C3_amended_subject_merge c3aFs c3aOut c3aRest rfl

/-! ### claim C4 -/

theorem getOwn_obj (fs : JsFields) (k : String) : getOwn (.obj fs) k = getF fs k := rfl

theorem delOptField_obj (fs : JsFields) (k1 k2 : String) :
    ∃ gs : JsFields, delOptField (.obj fs) k1 k2 = .obj gs := by
  unfold delOptField
  split
  · exact ⟨_, rfl⟩
  · exact ⟨fs, rfl⟩

/-- `credSubjectStep` keeps an object result an object. -/
theorem credSubjectStep_obj (input : JsVal) (gs : JsFields) :
    ∃ hs : JsFields, credSubjectStep input (.obj gs) = .obj hs := by
  simp only [credSubjectStep]
  split
  · exact delOptField_obj _ _ _
  · exact delOptField_obj _ _ _

/-- exact effect of converters.ts lines 98-103 on the `issuer` and `iss` keys
    of an object-valued `result`. -/
theorem credIssuerStep_effect (input : JsVal) (rfs : JsFields) :
    ((jsTypeof (jget input "issuer") = "undefined"
        ∨ jsTypeof (jget input "issuer") = "object") →
      getOwn (credIssuerStep input (.obj rfs)) "issuer"
        = some (cleanUndefined (.obj (spreadIntoF (.cons "id" (jget input "iss") .nil)
            (jget input "issuer"))))
      ∧ getOwn (credIssuerStep input (.obj rfs)) "iss"
        = (if truthy (jget (jget input "issuer") "id") then getF rfs "iss" else none))
    ∧ (¬(jsTypeof (jget input "issuer") = "undefined"
        ∨ jsTypeof (jget input "issuer") = "object") →
      getOwn (credIssuerStep input (.obj rfs)) "issuer" = getF rfs "issuer"
      ∧ getOwn (credIssuerStep input (.obj rfs)) "iss" = getF rfs "iss") := by
  simp only [credIssuerStep]
  constructor
  · intro hcond
    rw [if_pos hcond]
    by_cases hid : truthy (jget (jget input "issuer") "id") = true
    · rw [if_neg (by rw [hid]; exact Bool.false_ne_true)]
      constructor
      · rw [getOwn_setOwn_self]
      · rw [getOwn_setOwn_ne _ _ _ _ (by decide : ("issuer" : String) ≠ "iss"),
          hid, if_pos rfl, getOwn_obj]
    · have hid' : truthy (jget (jget input "issuer") "id") = false := by
        revert hid; cases truthy (jget (jget input "issuer") "id") <;> simp
      rw [if_pos (show (!truthy (jget (jget input "issuer") "id")) = true by rw [hid']; rfl)]
      constructor
      · rw [getOwn_delOwn_ne _ _ _ (by decide : ("iss" : String) ≠ "issuer"),
          getOwn_setOwn_self]
      · rw [getOwn_delOwn_self, hid', if_neg Bool.false_ne_true]
  · intro hcond
    rw [if_neg hcond]
    exact ⟨rfl, rfl⟩

def c4Fs : JsFields := jsFieldsOf [("issuer", jsObj [("id", .str "X")]), ("iss", .str "I")]

def c4Out : JsVal :=
  match normalizeJwtCredentialPayload (.obj c4Fs) with
  | .error _ => .undef
  | .ok p => p.1

def c4Rest : JsVal :=
  match normalizeJwtCredentialPayload (.obj c4Fs) with
  | .error _ => .undef
  | .ok p => p.2

/-- C4 counterexample: on `{issuer:{id:"X"}, iss:"I"}` the resulting issuer
    object has an id, yet `iss` is NOT deleted — line 100 deletes `iss` iff the
    ORIGINAL `input.issuer?.id` is falsy, not iff the resulting issuer has an
    id. -/
theorem C4_counterexample :
    normalizeJwtCredentialPayload (.obj c4Fs) = .ok (c4Out, c4Rest)
    ∧ jget (jget c4Out "issuer") "id" = .str "X"
    ∧ getOwn c4Out "iss" = some (.str "I") :=
  ⟨rfl, rfl, rfl⟩

/-- C4 amended: for every object input whose payload normalization succeeds,
    if `typeof input.issuer` is `undefined` or `object` the output's issuer is
    `cleanUndefined({id: input.iss, ...input.issuer})` and `iss` is deleted iff
    the ORIGINAL `input.issuer?.id` is falsy (when it is truthy, `iss` keeps the
    value it had after the legacy-attestation step); for a non-object issuer
    both `issuer` and `iss` are left as they were after the legacy step. -/
theorem C4_amended_issuer (fs : JsFields) (out rest : JsVal)
    (hok : normalizeJwtCredentialPayload (.obj fs) = .ok (out, rest)) :
    ((jsTypeof (jget (.obj fs) "issuer") = "undefined"
        ∨ jsTypeof (jget (.obj fs) "issuer") = "object") →
      getOwn out "issuer"
        = some (cleanUndefined (.obj (spreadIntoF (.cons "id" (jget (.obj fs) "iss") .nil)
            (jget (.obj fs) "issuer"))))
      ∧ (truthy (jget (jget (.obj fs) "issuer") "id") = false → getOwn out "iss" = none)
      ∧ (truthy (jget (jget (.obj fs) "issuer") "id") = true →
          getOwn out "iss" = getOwn (credLegacyStep (.obj fs)).1 "iss"))
    ∧ (¬(jsTypeof (jget (.obj fs) "issuer") = "undefined"
        ∨ jsTypeof (jget (.obj fs) "issuer") = "object") →
      getOwn out "issuer" = getOwn (credLegacyStep (.obj fs)).1 "issuer"
      ∧ getOwn out "iss" = getOwn (credLegacyStep (.obj fs)).1 "iss") := by
  have hissuer : getOwn out "issuer"
      = getOwn (credIssuerStep (.obj fs)
          (credSubjectStep (.obj fs) (credLegacyStep (.obj fs)).1)) "issuer" :=
    normCred_getOwn_eq_issuerStep _ _ _ _ hok (by decide) (by decide) (by decide)
      (by decide) (by decide) (by decide) (by decide) (by decide) (by decide)
      (by decide) (by decide)
  have hiss : getOwn out "iss"
      = getOwn (credIssuerStep (.obj fs)
          (credSubjectStep (.obj fs) (credLegacyStep (.obj fs)).1)) "iss" :=
    normCred_getOwn_eq_issuerStep _ _ _ _ hok (by decide) (by decide) (by decide)
      (by decide) (by decide) (by decide) (by decide) (by decide) (by decide)
      (by decide) (by decide)
  obtain ⟨gs, hg⟩ := credLegacyStep_obj fs
  rw [hg] at hissuer hiss
  obtain ⟨hs, hh⟩ := credSubjectStep_obj (.obj fs) gs
  rw [hh] at hissuer hiss
  have hfr_iss : getF hs "iss" = getOwn (.obj gs) "iss" := by
    have hfr := credSubjectStep_frame (.obj fs) (.obj gs) "iss"
      (by decide) (by decide) (by decide)
    rw [hh, getOwn_obj] at hfr
    exact hfr
  have hfr_issuer : getF hs "issuer" = getOwn (.obj gs) "issuer" := by
    have hfr := credSubjectStep_frame (.obj fs) (.obj gs) "issuer"
      (by decide) (by decide) (by decide)
    rw [hh, getOwn_obj] at hfr
    exact hfr
  have hchar := credIssuerStep_effect (.obj fs) hs
  constructor
  · intro hcond
    obtain ⟨hA, hB⟩ := hchar.1 hcond
    refine ⟨by rw [hissuer, hA], ?_, ?_⟩
    · intro hid
      rw [hiss, hB, hid, if_neg Bool.false_ne_true]
    · intro hid
      rw [hiss, hB, hid, if_pos rfl, hfr_iss, hg]
  · intro hcond
    obtain ⟨hA, hB⟩ := hchar.2 hcond
    exact ⟨by rw [hissuer, hA, hfr_issuer, hg], by rw [hiss, hB, hfr_iss, hg]⟩

/-- witness for C4's amended theorem at `{issuer:{id:"X"}, iss:"I"}`. -/
theorem C4_amended_issuer_witness :
    ((jsTypeof (jget (.obj c4Fs) "issuer") = "undefined"
        ∨ jsTypeof (jget (.obj c4Fs) "issuer") = "object") →
      getOwn c4Out "issuer"
        = some (cleanUndefined (.obj (spreadIntoF (.cons "id" (jget (.obj c4Fs) "iss") .nil)
            (jget (.obj c4Fs) "issuer"))))
      ∧ (truthy (jget (jget (.obj c4Fs) "issuer") "id") = false → getOwn c4Out "iss" = none)
      ∧ (truthy (jget (jget (.obj c4Fs) "issuer") "id") = true →
          getOwn c4Out "iss" = getOwn (credLegacyStep (.obj c4Fs)).1 "iss"))
    ∧ (¬(jsTypeof (jget (.obj c4Fs) "issuer") = "undefined"
        ∨ jsTypeof (jget (.obj c4Fs) "issuer") = "object") →
      getOwn c4Out "issuer" = getOwn (credLegacyStep (.obj c4Fs)).1 "issuer"
      ∧ getOwn c4Out "iss" = getOwn (credLegacyStep (.obj c4Fs)).1 "iss") :=
  C4_amended_issuer c4Fs c4Out c4Rest rfl


/-! ### claim C7 (amended part) -/

def c7In (n : Nat) : JsVal := .obj (.cons "nbf" (.num (n : Int)) .nil)

def c7F5 (n : Nat) : JsFields :=
  .cons "nbf" (.num (n : Int)) (.cons "credentialSubject" (.obj .nil)
    (.cons "issuer" (.obj .nil) (.cons "type" (.arr .nil)
      (.cons "@context" (.arr .nil) .nil))))

def c7F6 (iso : String) : JsFields :=
  .cons "credentialSubject" (.obj .nil) (.cons "issuer" (.obj .nil)
    (.cons "type" (.arr .nil) (.cons "@context" (.arr .nil)
      (.cons "issuanceDate" (.str iso) .nil))))

def c7VcF : JsFields :=
  .cons "credentialSubject" (.obj .nil) (.cons "@context" (.arr .nil)
    (.cons "type" (.arr .nil) .nil))

def c7R4 (iso : String) : JsVal :=
  .obj (.cons "vc" (.obj c7VcF) (.cons "issuer" (.obj .nil)
    (.cons "issuanceDate" (.str iso) (.cons "sub" .undef .nil))))

def c7Out2 (n : Nat) : JsVal :=
  .obj (.cons "vc" (.obj c7VcF) (.cons "sub" .undef
    (.cons "nbf" (.num (Int.fdiv ((n : Int) * 1000) 1000)) (.cons "iss" .undef .nil))))

/-- C7 amended: the date round trip is exact for every positive number of
    seconds `n` whose millisecond value stays inside the ECMAScript Date range
    (`n ≤ 8640000000000`): normalizing `{nbf: n}` yields
    `issuanceDate = toISOString(n*1000)` with `nbf` deleted, and transforming
    that result parses the ISO string and recovers `nbf = n` exactly
    (`Math.floor` of milliseconds over 1000, no drift).  Beyond that range
    normalization throws instead (see the counterexample). -/
theorem C7_amended_roundtrip (n : Nat) (hpos : 0 < n) (hle : n ≤ 8640000000000) :
    ∃ iso : String, ∃ out2 : JsVal,
      normalizeJwtCredentialPayload (c7In n) = .ok (.obj (c7F6 iso), c7In n)
      ∧ toISOString ((n : Int) * 1000) = some iso
      ∧ getOwn (JsVal.obj (c7F6 iso)) "issuanceDate" = some (.str iso)
      ∧ getOwn (JsVal.obj (c7F6 iso)) "nbf" = none
      ∧ transformCredentialInput (.obj (c7F6 iso)) = .ok out2
      ∧ getOwn out2 "nbf" = some (.num (n : Int)) := by
  obtain ⟨iso, hiso0, hparse0⟩ := toISOString_roundtrip (n * 1000) (by omega)
  have hiso1 : toISOString ((n : Int) * 1000) = some iso := hiso0
  have hparse2 : dateParse iso = some ((n : Int) * 1000) := hparse0
  have htr : truthy (JsVal.num (n : Int)) = true := by
    show ((n : Int) != 0) = true
    simp only [bne_iff_ne, ne_eq, Int.natCast_eq_zero]
    omega
  have hnb : truthy (jget (c7In n) "nbf") = true := htr
  have hc : (!truthy (jget (c7In n) "issuanceDate")
      && (truthy (jget (c7In n) "iat") || truthy (jget (c7In n) "nbf"))) = true := by
    show (!truthy JsVal.undef && (truthy JsVal.undef || truthy (JsVal.num (n : Int)))) = true
    rw [show truthy JsVal.undef = false from rfl, htr]; rfl
  have hor0 : jsToNumber (jsOr (jget (c7In n) "nbf") (jget (c7In n) "iat"))
      = some ((n : Int)) := by
    show jsToNumber (jsOr (JsVal.num (n : Int)) JsVal.undef) = some ((n : Int))
    simp only [jsOr]
    rw [htr]
    rfl
  have hdate : credDateStep (c7In n) (.obj (c7F5 n)) = .ok (.obj (c7F6 iso)) := by
    simp only [credDateStep]
    rw [hc]
    simp only [eq_self_iff_true, if_true]
    rw [hor0]
    simp only []
    rw [hiso1]
    simp only []
    rw [hnb]
    rfl
  have hnorm : normalizeJwtCredentialPayload (c7In n) = .ok (.obj (c7F6 iso), c7In n) := by
    rw [show normalizeJwtCredentialPayload (c7In n)
        = (match credDateStep (c7In n) (.obj (c7F5 n)) with
           | .error e => .error e
           | .ok r6 =>
             match credExpStep (c7In n) r6 with
             | .error e => .error e
             | .ok r7 => .ok (credVcCleanupStep r7, c7In n)) from rfl]
    rw [hdate]
    rfl
  -- transform side
  have hisone : (iso != "") = true := by
    rw [bne_iff_ne]
    intro h
    rw [h] at hparse2
    exact Option.noConfusion (hparse2.symm.trans (show dateParse "" = none from rfl))
  have htrIso : truthy (jget (.obj (c7F6 iso)) "issuanceDate") = true := hisone
  have hcond2 : (truthy (jget (.obj (c7F6 iso)) "issuanceDate")
      && !hasOwn (.obj (c7F6 iso)) "nbf") = true := by
    rw [htrIso]; rfl
  have hdpv : dateParseVal (jget (.obj (c7F6 iso)) "issuanceDate")
      = some ((n : Int) * 1000) := hparse2
  have hnbfstep : transformNbfStep (.obj (c7F6 iso)) (c7R4 iso)
      = delOwn (setOwn (c7R4 iso) "nbf" (.num (Int.fdiv ((n : Int) * 1000) 1000)))
          "issuanceDate" := by
    simp only [transformNbfStep]
    rw [hcond2]
    simp only [eq_self_iff_true, if_true]
    rw [hdpv]
  have htrans : transformCredentialInput (.obj (c7F6 iso)) = .ok (c7Out2 n) := by
    rw [show transformCredentialInput (.obj (c7F6 iso))
        = .ok (transformIssuerStep (.obj (c7F6 iso)) (transformExpStep (.obj (c7F6 iso))
            (transformNbfStep (.obj (c7F6 iso)) (c7R4 iso)))) from rfl]
    rw [hnbfstep]
    rfl
  have hfdiv : Int.fdiv ((n : Int) * 1000) 1000 = (n : Int) :=
    Int.mul_fdiv_cancel _ (by norm_num)
  refine ⟨iso, c7Out2 n, hnorm, hiso1, rfl, rfl, htrans, ?_⟩
  show some (JsVal.num (Int.fdiv ((n : Int) * 1000) 1000)) = some (JsVal.num (n : Int))
  rw [hfdiv]


/-- witness for C7's amended theorem at `n = 1600000000`, together with the
    concrete ISO rendering "2020-09-13T12:26:40.000Z". -/
theorem C7_amended_roundtrip_witness :
    (∃ iso : String, ∃ out2 : JsVal,
      normalizeJwtCredentialPayload (c7In 1600000000) = .ok (.obj (c7F6 iso), c7In 1600000000)
      ∧ toISOString ((1600000000 : Nat) * 1000) = some iso
      ∧ getOwn (JsVal.obj (c7F6 iso)) "issuanceDate" = some (.str iso)
      ∧ getOwn (JsVal.obj (c7F6 iso)) "nbf" = none
      ∧ transformCredentialInput (.obj (c7F6 iso)) = .ok out2
      ∧ getOwn out2 "nbf" = some (.num ((1600000000 : Nat) : Int)))
    ∧ toISOString (1600000000 * 1000) = some "2020-09-13T12:26:40.000Z" :=
  ⟨C7_amended_roundtrip 1600000000 (by norm_num) (by norm_num), rfl⟩

/-! ### claim C9 -/

theorem presHolderStep_frame (input r : JsVal) (k : String)
    (h1 : k ≠ "holder") (h2 : k ≠ "iss") :
    getOwn (presHolderStep input r) k = getOwn r k := by
  unfold presHolderStep
  split
  · rw [getOwn_delOwn_ne _ _ _ h2.symm, getOwn_setOwn_ne _ _ _ _ h1.symm]
  · rfl

theorem presAudStep_frame (input r : JsVal) (k : String)
    (h1 : k ≠ "verifier") (h2 : k ≠ "aud") :
    getOwn (presAudStep input r) k = getOwn r k := by
  unfold presAudStep
  split
  · rw [getOwn_delOwn_ne _ _ _ h2.symm, getOwn_setOwn_ne _ _ _ _ h1.symm]
  · rfl

theorem presIdStep_frame (input r : JsVal) (k : String)
    (h1 : k ≠ "id") (h2 : k ≠ "jti") :
    getOwn (presIdStep input r) k = getOwn r k := by
  unfold presIdStep
  split
  · rw [getOwn_delOwn_ne _ _ _ h2.symm, getOwn_setOwn_ne _ _ _ _ h1.symm]
  · rfl

theorem presTypeStep_frame (input r : JsVal) (k : String)
    (h1 : k ≠ "type") (h2 : k ≠ "vp") :
    getOwn (presTypeStep input r) k = getOwn r k := by
  unfold presTypeStep
  rw [getOwn_delOptField_ne _ _ _ _ h2.symm, getOwn_setOwn_ne _ _ _ _ h1.symm]

theorem presContextStep_frame (input r : JsVal) (k : String)
    (h1 : k ≠ "@context") (h2 : k ≠ "context") (h3 : k ≠ "vp") :
    getOwn (presContextStep input r) k = getOwn r k := by
  unfold presContextStep
  rw [getOwn_delOptField_ne _ _ _ _ h3.symm, getOwn_delOwn_ne _ _ _ h2.symm,
    getOwn_setOwn_ne _ _ _ _ h1.symm]

theorem presVpCleanupStep_frame (r : JsVal) (k : String) (h1 : k ≠ "vp") :
    getOwn (presVpCleanupStep r) k = getOwn r k := by
  unfold presVpCleanupStep
  split
  · rw [getOwn_delOwn_ne _ _ _ h1.symm]
  · rfl

/-- C9: for every object input to presentation payload normalization, the
    output's `verifiableCredential` is the concatenation (top-level entries
    first, order preserved) of the element-wise `normalizeCredential` results
    of the top-level `verifiableCredential` array and of
    `vp.verifiableCredential`. -/
theorem C9_presentation_credentials (jp dec : String → Option JsVal) (fs : JsFields)
    (ns1 es1 ns2 es2 : JsList) (out rest : JsVal)
    (h1 : normCredListF jp dec (asArrayL (jget (.obj fs) "verifiableCredential"))
        = .ok (ns1, es1))
    (h2 : normCredListF jp dec (asArrayL (jget (jget (.obj fs) "vp") "verifiableCredential"))
        = .ok (ns2, es2))
    (hok : normalizeJwtPresentationPayload jp dec (.obj fs) = .ok (out, rest)) :
    getOwn out "verifiableCredential" = some (.arr (appendL ns1 ns2)) := by
  simp only [normalizeJwtPresentationPayload] at hok
  rw [h1, h2] at hok
  simp only [] at hok
  split at hok
  · exact absurd hok (by simp)
  case h_2 r8 hd =>
    split at hok
    · exact absurd hok (by simp)
    case h_2 r9 he =>
      rw [Except.ok.injEq, Prod.mk.injEq] at hok
      obtain ⟨ho, -⟩ := hok
      subst ho
      rw [presVpCleanupStep_frame _ _ (by decide),
        credExpStep_frame _ _ _ _ he (by decide) (by decide),
        credDateStep_frame _ _ _ _ hd (by decide) (by decide) (by decide),
        presContextStep_frame _ _ _ (by decide) (by decide) (by decide),
        presTypeStep_frame _ _ _ (by decide) (by decide),
        presIdStep_frame _ _ _ (by decide) (by decide),
        presAudStep_frame _ _ _ (by decide) (by decide),
        presHolderStep_frame _ _ _ (by decide) (by decide),
        getOwn_delOptField_ne _ _ _ _ (by decide)]
      simp only [deepCopy]
      rw [getOwn_setOwn_self]

def c9Dec : String → Option JsVal := fun s =>
  if s = "aaa.bbb.ccc" then
    some (jsObj [("iss", .str "did:issuer"), ("sub", .str "did:subject")])
  else none

def c9Fs : JsFields := jsFieldsOf [("vp", jsObj [("verifiableCredential",
  jsArr [.str "aaa.bbb.ccc",
         jsObj [("credentialSubject", jsObj [("id", .str "did:ex")]),
                ("issuer", .str "did:i")]])])]

def c9In : JsVal := .obj c9Fs

/-- the JWT-compact entry, normalized to a canonical credential. -/
def c9V1 : JsVal := jsObj [("credentialSubject", jsObj [("id", .str "did:subject")]),
  ("issuer", jsObj [("id", .str "did:issuer")]), ("type", jsArr []), ("@context", jsArr []),
  ("proof", jsObj [("type", .str DEFAULT_JWT_PROOF_TYPE), ("jwt", .str "aaa.bbb.ccc")])]

/-- the JSON-LD entry, normalized to a canonical credential. -/
def c9V2 : JsVal := jsObj [("proof", jsObj []),
  ("credentialSubject", jsObj [("id", .str "did:ex")]),
  ("issuer", .str "did:i"), ("type", jsArr []), ("@context", jsArr [])]

def c9Es2 : JsList := .cons (.str "aaa.bbb.ccc")
  (.cons (jsObj [("credentialSubject", jsObj [("id", .str "did:ex")]),
                 ("issuer", .str "did:i")]) .nil)

def c9POut : JsVal :=
  match normalizeJwtPresentationPayload noParse c9Dec c9In with
  | .error _ => .undef
  | .ok p => p.1

/-- witness for C9 at a presentation whose `vp.verifiableCredential` holds one
    compact-JWT string and one JSON-LD object: both come out as canonical
    credentials, in order, and `vp.verifiableCredential` is removed (here the
    emptied `vp` itself is dropped). -/
theorem C9_presentation_credentials_witness :
    getOwn c9POut "verifiableCredential"
      = some (.arr (appendL JsList.nil (.cons c9V1 (.cons c9V2 .nil))))
    ∧ normalizeJwtPresentationPayload noParse c9Dec c9In = .ok (c9POut, c9In)
    ∧ normalizePresentation noParse c9Dec c9In
        = .ok (.obj (spreadIntoF (.cons "proof" (.obj .nil) .nil) c9POut), c9In)
    ∧ hasOwn (jget c9POut "vp") "verifiableCredential" = false
    ∧ hasOwn c9POut "vp" = false :=
  ⟨C9_presentation_credentials noParse c9Dec c9Fs JsList.nil (.cons .undef .nil)
      (.cons c9V1 (.cons c9V2 .nil)) c9Es2 c9POut c9In rfl rfl rfl,
   rfl, rfl, rfl, rfl⟩
